import Mathlib

/-!
tasks-go: the task entity, the key-mapper, the stores and the handlers

A shallow embedding of `cmd/api` (models.go, store.go, store_mock.go, handlers.go) and the
properties of its specification.

Modelling conventions.
* A Go `string` is a Lean `String`; `+` is `++`, and `== ""` is equality with `""`.
* A Go `error` is the text of its `Error()`; `none` is the nil error.
* `uuid.UUID` is a 16-byte array; `uuid.Parse` and `UUID.String` follow github.com/google/uuid.
* `time.Now().UTC()`, `uuid.New()` and the codecs of the AWS SDK and of `encoding/json` are
  inputs, gathered in `Env`.
* The DynamoDB client is a `Client`: what the backend answers to each call. The methods of
  `TaskStore` and the handlers return, next to their result, the calls they made on it.
* The pagination loop of `TaskStore.listByStatus` need not end; it is run for a bounded number
  of rounds and reports `Run.running` when the bound is reached.
* A Go map is a list of entries with pairwise distinct keys; the order in which `range` visits
  the entries is an input of the loop that ranges over it.
* A Go slice is `nil` or a sequence, because `encoding/json` tells the two apart.
-/

namespace TasksGo

/-! ## github.com/google/uuid -/

/-- The value of `uuid.UUID`, `[16]byte`. -/
structure UUID where
  bytes : List (Fin 256)
  size : bytes.length = 16
deriving DecidableEq

/-- The zero value of `uuid.UUID` (`var uuid UUID`, `uuid.Nil`). -/
def UUID.zero : UUID := ⟨List.replicate 16 0, by simp⟩

/-- The assignment `uuid[i] = v`. -/
def UUID.set (u : UUID) (i : Nat) (v : Fin 256) : UUID :=
  ⟨u.bytes.set i v, by simp [u.size]⟩

/-- The table `hextable` of `encoding/hex`. -/
def hextable : List Char := "0123456789abcdef".data

/-- The digit `hextable[v>>4]`. -/
def hexHi (v : Fin 256) : Char :=
  hextable.getD (v.val / 16) '0'

/-- The digit `hextable[v&0x0f]`. -/
def hexLo (v : Fin 256) : Char :=
  hextable.getD (v.val % 16) '0'

/-- The two digits that `hex.Encode` writes for one byte. -/
def hexByte (v : Fin 256) : List Char :=
  [hexHi v, hexLo v]

/-- The digits written by `hex.Encode(dst, src)`. -/
def hexEncode (src : List (Fin 256)) : List Char :=
  src.flatMap hexByte

/-- The 36 bytes written by `encodeHex`: `uuid[:4]`, `uuid[4:6]`, `uuid[6:8]`, `uuid[8:10]` and
`uuid[10:]` in hexadecimal, separated by dashes. -/
def encodeHex (u : UUID) : List Char :=
  hexEncode (u.bytes.take 4) ++ '-' :: hexEncode ((u.bytes.drop 4).take 2)
    ++ '-' :: hexEncode ((u.bytes.drop 6).take 2)
    ++ '-' :: hexEncode ((u.bytes.drop 8).take 2)
    ++ '-' :: hexEncode (u.bytes.drop 10)

/-- The method `UUID.String`: the form xxxxxxxx-xxxx-xxxx-xxxx-xxxxxxxxxxxx. -/
def UUID.String (u : UUID) : String :=
  String.mk (encodeHex u)

/-- The table `xvalues`: the value of a hexadecimal digit of either case, 255 for any other
byte. -/
def xvalue (c : Char) : Nat :=
  if 48 ≤ c.toNat ∧ c.toNat ≤ 57 then c.toNat - 48
  else if 97 ≤ c.toNat ∧ c.toNat ≤ 102 then c.toNat - 87
  else if 65 ≤ c.toNat ∧ c.toNat ≤ 70 then c.toNat - 55
  else 255

/-- The function `xtob`: the byte `(b1 << 4) | b2` of two hexadecimal digits, `none` when one of
the two is no digit. -/
def xtob (x1 x2 : Char) : Option (Fin 256) :=
  if xvalue x1 ≠ 255 ∧ xvalue x2 ≠ 255 then
    some ⟨((xvalue x1 * 16) % 256 ||| xvalue x2) % 256, Nat.mod_lt _ (by decide)⟩
  else none

/-- The byte `s[i]` of a string whose length has been checked. -/
def byteAt (s : List Char) (i : Nat) : Char :=
  s.getD i '\x00'

/-- A Go `error` is held as the text of its `Error()`; `Except.error msg` is a non-nil error. -/
abbrev GoError := String

deriving instance DecidableEq for Except

/-- The text of `invalidLengthError{len}`. -/
def invalidLengthError (len : Nat) : GoError :=
  "invalid UUID length: " ++ String.mk (Nat.toDigits 10 len)

/-- The text of `errors.New("invalid UUID format")`. -/
def invalidFormatError : GoError :=
  "invalid UUID format"

/-- The verb `%q` on an ASCII string: printable characters stand for themselves, the double
quote and the backslash get a backslash, the other ASCII characters their escape. A character
above U+007F is left as it is (Go escapes those that are not printable). -/
def quoteChar (c : Char) : List Char :=
  if c = '"' then ['\\', '"']
  else if c = '\\' then ['\\', '\\']
  else if 32 ≤ c.toNat ∧ c.toNat ≠ 127 then [c]
  else if c.toNat = 7 then ['\\', 'a']
  else if c.toNat = 8 then ['\\', 'b']
  else if c.toNat = 12 then ['\\', 'f']
  else if c.toNat = 10 then ['\\', 'n']
  else if c.toNat = 13 then ['\\', 'r']
  else if c.toNat = 9 then ['\\', 't']
  else if c.toNat = 11 then ['\\', 'v']
  else ['\\', 'x', hextable.getD (c.toNat / 16) '0', hextable.getD (c.toNat % 16) '0']

/-- The text of `fmt.Errorf("invalid urn prefix: %q", s[:9])`. -/
def invalidURNPrefixError (pre : List Char) : GoError :=
  "invalid urn prefix: " ++ String.mk ('"' :: pre.flatMap quoteChar ++ ['"'])

/-- A loop `for i := range ... { uuid[i], ok = xtob(s[x], s[x+1]); if !ok { return error } }`
over the pairs `(i, x)` of `offsets`. -/
def parseLoop (s : List Char) : List (Nat × Nat) → UUID → Except GoError UUID
  | [], u => .ok u
  | (i, x) :: rest, u =>
    match xtob (byteAt s x) (byteAt s (x + 1)) with
    | none => .error invalidFormatError
    | some v => parseLoop s rest (u.set i v)

/-- The positions of the 16 digit pairs in the dashed form, with the index of the byte each one
fills. -/
def dashedOffsets : List (Nat × Nat) :=
  [0, 2, 4, 6, 9, 11, 14, 16, 19, 21, 24, 26, 28, 30, 32, 34].enum

/-- The positions of the 16 digit pairs in the form of 32 digits (`s[i*2]`, `s[i*2+1]`). -/
def plainOffsets : List (Nat × Nat) :=
  (List.range 16).map (fun i => (i, i * 2))

/-- The tail of `uuid.Parse`, after the `switch`: `s` is in the dashed form. -/
def parseDashed (s : List Char) : Except GoError UUID :=
  if byteAt s 8 ≠ '-' ∨ byteAt s 13 ≠ '-' ∨ byteAt s 18 ≠ '-' ∨ byteAt s 23 ≠ '-' then
    .error invalidFormatError
  else parseLoop s dashedOffsets UUID.zero

/-- Whether every character of the string is ASCII, so that its bytes are its characters. -/
def isASCII (s : List Char) : Bool :=
  s.all (fun c => c.toNat < 128)

/-- The function `uuid.Parse`. `len(s)` counts the bytes of the UTF-8 form of `s`. Each branch
reads every byte of the 32 or 36 it decodes as a hexadecimal digit or a dash, so a string with
a character above U+007F fails in the branch its length selects with the error of that branch;
`strings.EqualFold(s[:9], "urn:uuid:")` holds exactly when the first nine characters are ASCII
letters and colons equal to `urn:uuid:` up to case. For an ASCII string bytes and characters
coincide and the string is read byte by byte. -/
def Parse (s : String) : Except GoError UUID :=
  if s.utf8ByteSize = 36 then
    if isASCII s.data then parseDashed s.data else .error invalidFormatError
  else if s.utf8ByteSize = 36 + 9 then
    if (s.data.take 9).map Char.toLower ≠ "urn:uuid:".data then
      .error (invalidURNPrefixError (s.data.take 9))
    else if isASCII s.data then parseDashed (s.data.drop 9) else .error invalidFormatError
  else if s.utf8ByteSize = 36 + 2 then
    if isASCII s.data then parseDashed (s.data.drop 1) else .error invalidFormatError
  else if s.utf8ByteSize = 32 then
    if isASCII s.data then parseLoop s.data plainOffsets UUID.zero
    else .error invalidFormatError
  else .error (invalidLengthError s.utf8ByteSize)

/-! ## models.go -/

/-- The type `TaskStatus`, a string. -/
abbrev TaskStatus := String

/-- The constant `TaskStatusOpen`. -/
def TaskStatusOpen : TaskStatus := "OPEN"

/-- The constant `TaskStatusClosed`. -/
def TaskStatusClosed : TaskStatus := "CLOSED"

/-- The struct `Task`. -/
structure Task where
  ID : UUID
  Title : String
  Status : TaskStatus
  Owner : String
deriving DecidableEq

/-- The zero value `Task{}`. -/
def Task.zero : Task := ⟨UUID.zero, "", "", ""⟩

/-- The function `NewTask`. -/
def NewTask (id : UUID) (title owner : String) : Task :=
  { ID := id, Title := title, Status := TaskStatusOpen, Owner := owner }

/-- The struct `DynamoDBTask`. -/
structure DynamoDBTask where
  PK : String
  SK : String
  GS1PK : String
  GS1SK : String
  ID : String
  Title : String
  Owner : String
  Status : TaskStatus
deriving DecidableEq

/-- The method `DynamoDBTask.ToTask`: the pair `(Task, error)` it returns, `none` for the nil
error. -/
def DynamoDBTask.ToTask (dt : DynamoDBTask) : Task × Option GoError :=
  match Parse dt.ID with
  | .error err => (Task.zero, some err)
  | .ok id => ({ ID := id, Title := dt.Title, Status := dt.Status, Owner := dt.Owner }, none)

/-! ## time: the clock and `Format(time.RFC3339)` -/

/-- An instant as `time.Now().UTC()` returns it: the seconds since 1970-01-01T00:00:00Z and the
nanoseconds within the second. -/
structure Time where
  unixSec : Int
  nsec : Nat
deriving DecidableEq

/-- The proleptic Gregorian date `(year, month, day)` of a day counted from 1970-01-01, as
`Time.Date` computes it. -/
def civilFromDays (z : Int) : Int × Int × Int :=
  let z := z + 719468
  let era := z / 146097
  let doe := z - era * 146097
  let yoe := (doe - doe / 1460 + doe / 36524 - doe / 146096) / 365
  let doy := doe - (365 * yoe + yoe / 4 - yoe / 100)
  let mp := (5 * doy + 2) / 153
  let d := doy - (153 * mp + 2) / 5 + 1
  let m := if mp < 10 then mp + 3 else mp - 9
  let y := yoe + era * 400
  (if m ≤ 2 then y + 1 else y, m, d)

/-- The method `Time.Year` of an instant in UTC: the year of its date. -/
def Time.Year (t : Time) : Int :=
  (civilFromDays (t.unixSec / 86400)).1

/-- The function `appendInt(b, x, width)` of package time: the decimal digits of `x`, padded
with zeros on the left to `width` digits, after a minus sign when `x` is negative. -/
def appendInt (x : Int) (width : Nat) : String :=
  let digits := Nat.toDigits 10 x.natAbs
  let padded := List.replicate (width - digits.length) '0' ++ digits
  String.mk (if x < 0 then '-' :: padded else padded)

/-- The layout `time.RFC3339`, "2006-01-02T15:04:05Z07:00", applied to an instant in UTC: the
zone is printed as `Z` and the nanoseconds are dropped. -/
def formatRFC3339 (t : Time) : String :=
  let days := t.unixSec / 86400
  let secs := t.unixSec % 86400
  let ymd := civilFromDays days
  appendInt ymd.1 4 ++ "-" ++ appendInt ymd.2.1 2 ++ "-" ++ appendInt ymd.2.2 2 ++ "T"
    ++ appendInt (secs / 3600) 2 ++ ":" ++ appendInt (secs % 3600 / 60) 2 ++ ":"
    ++ appendInt (secs % 60) 2 ++ "Z"

/-- The function `ToDynamoDBTask`; `now` is the instant `time.Now().UTC()` that it reads. -/
def ToDynamoDBTask (now : Time) (task : Task) : DynamoDBTask :=
  { PK := "#" ++ task.Owner,
    SK := "#" ++ task.ID.String,
    GS1PK := "#" ++ task.Owner ++ "#" ++ task.Status,
    GS1SK := "#" ++ formatRFC3339 now,
    ID := task.ID.String,
    Title := task.Title,
    Owner := task.Owner,
    Status := task.Status }

/-! ## Go maps and slices -/

/-- A Go map with string keys: finitely many entries, no key twice. `m[k] = v` is
`AList.insert k v m`, the lookup `v, ok := m[k]` is `AList.lookup k m`, and `make(map...)` is
`∅`. The order of the entries means nothing: a loop over the map takes the order of its visit
as an input. -/
abbrev GoMap (V : Type) := AList (fun _ : String => V)

/-- The values of a map, in the order of its representation. -/
def GoMap.values {V : Type} (m : GoMap V) : List V :=
  m.entries.map Sigma.snd

/-- A Go slice: the nil slice, or a slice over the elements `elems` (empty or not). -/
inductive Slice (α : Type) where
  | null : Slice α
  | mk (elems : List α) : Slice α
deriving DecidableEq

/-- The elements of a slice; the nil slice has none. -/
def Slice.toList {α : Type} : Slice α → List α
  | .null => []
  | .mk elems => elems

/-- The built-in `append(s, a)`: never nil. -/
def Slice.append {α : Type} (s : Slice α) (a : α) : Slice α :=
  .mk (s.toList ++ [a])

/-! ## store_mock.go -/

/-- The struct `MockTaskStore`: `map[owner]map[taskID]Task`. -/
structure MockTaskStore where
  tasks : GoMap (GoMap Task)
deriving DecidableEq

/-- The function `NewMockTaskStore`. -/
def NewMockTaskStore : MockTaskStore :=
  ⟨∅⟩

/-- The method `MockTaskStore.Add`: the store after the call and the error returned. The inner
map is a reference, so the assignment `m.tasks[task.Owner][task.ID.String()] = task` changes the
map held under the owner. -/
def MockTaskStore.Add (m : MockTaskStore) (task : Task) : MockTaskStore × Option GoError :=
  let tasks :=
    match m.tasks.lookup task.Owner with
    | some _ => m.tasks
    | none => m.tasks.insert task.Owner ∅
  let ownerTasks := (tasks.lookup task.Owner).getD ∅
  (⟨tasks.insert task.Owner (ownerTasks.insert task.ID.String task)⟩, none)

/-- The method `MockTaskStore.GetByID`. -/
def MockTaskStore.GetByID (m : MockTaskStore) (taskID : UUID) (owner : String) :
    Task × Option GoError :=
  match m.tasks.lookup owner with
  | none => (Task.zero, some "task not found")
  | some ownerTasks =>
    match ownerTasks.lookup taskID.String with
    | none => (Task.zero, some "task not found")
    | some task => (task, none)

/-- The loop `for _, task := range ownerTasks { if task.Status == status { tasks = append(tasks,
task) } }` over the values in the order they are visited. -/
def filterByStatus (status : TaskStatus) : List Task → Slice Task → Slice Task
  | [], tasks => tasks
  | task :: rest, tasks =>
    filterByStatus status rest (if task.Status = status then tasks.append task else tasks)

/-- The method `MockTaskStore.listByStatus`; `order` is the order in which `range` visits the
tasks of the owner. -/
def MockTaskStore.listByStatus (m : MockTaskStore) (order : List Task) (owner : String)
    (status : TaskStatus) : Slice Task × Option GoError :=
  match m.tasks.lookup owner with
  | none => (.mk [], none)
  | some _ => (filterByStatus status order .null, none)

/-- The method `MockTaskStore.ListOpen`. -/
def MockTaskStore.ListOpen (m : MockTaskStore) (order : List Task) (owner : String) :
    Slice Task × Option GoError :=
  m.listByStatus order owner TaskStatusOpen

/-- The method `MockTaskStore.ListClosed`. -/
def MockTaskStore.ListClosed (m : MockTaskStore) (order : List Task) (owner : String) :
    Slice Task × Option GoError :=
  m.listByStatus order owner TaskStatusClosed

/-- The tasks held under `owner`: the values of `m.tasks[owner]`, none when the owner has no
map. -/
def MockTaskStore.tasksOf (m : MockTaskStore) (owner : String) : List Task :=
  match m.tasks.lookup owner with
  | none => []
  | some ownerTasks => GoMap.values ownerTasks

/-- The statement `for _, task := range m.tasks[owner]` may visit the tasks in the order
`order`: Go leaves the order open, so every arrangement of the stored tasks is possible. -/
def MockTaskStore.RangeOrder (m : MockTaskStore) (owner : String) (order : List Task) : Prop :=
  order.Perm (m.tasksOf owner)

/-- Every stored task is filed under its own owner and under the string of its own id. -/
def MockTaskStore.Consistent (m : MockTaskStore) : Prop :=
  ∀ e ∈ m.tasks.entries, ∀ f ∈ e.2.entries, f.2.Owner = e.1 ∧ f.2.ID.String = f.1

instance (m : MockTaskStore) : Decidable m.Consistent := by
  unfold MockTaskStore.Consistent
  infer_instance

instance (m : MockTaskStore) (owner : String) (order : List Task) :
    Decidable (m.RangeOrder owner order) := by
  unfold MockTaskStore.RangeOrder
  infer_instance

/-- The stores that a program reaches through `NewMockTaskStore` and `Add`. -/
inductive MockTaskStore.Reachable : MockTaskStore → Prop where
  | new : MockTaskStore.Reachable NewMockTaskStore
  | add (m : MockTaskStore) (task : Task) :
      MockTaskStore.Reachable m → MockTaskStore.Reachable (m.Add task).1

/-- The stores that the create operation reaches: from a new store, each step is
`Add(NewTask(id, title, owner))`. -/
inductive MockTaskStore.Created : MockTaskStore → Prop where
  | new : MockTaskStore.Created NewMockTaskStore
  | add (m : MockTaskStore) (id : UUID) (title owner : String) :
      MockTaskStore.Created m → MockTaskStore.Created (m.Add (NewTask id title owner)).1

/-- The number of stored tasks: the sizes of the maps of all owners, added up. -/
def MockTaskStore.count (m : MockTaskStore) : Nat :=
  (m.tasks.entries.map (fun e => e.2.entries.length)).sum

/-! ## The AWS SDK: DynamoDB client and `attributevalue` -/

/-- The members of `types.AttributeValue` that hold one scalar. -/
inductive AttributeValue where
  | S (value : String)
  | N (value : String)
  | BOOL (value : Bool)
  | NULL
deriving DecidableEq

/-- The type `map[string]types.AttributeValue` of items and keys. -/
abbrev Item := List (String × AttributeValue)

/-- The fields of `dynamodb.QueryInput` that `listByStatus` sets; `ExclusiveStartKey` is `none`
while the map is nil. -/
structure QueryInput where
  TableName : String
  IndexName : String
  KeyConditionExpression : String
  ExpressionAttributeValues : Item
  ExclusiveStartKey : Option Item
deriving DecidableEq

/-- The fields of `dynamodb.QueryOutput` that `listByStatus` reads; `LastEvaluatedKey` is `none`
when the map is nil. -/
structure QueryOutput where
  Items : List Item
  LastEvaluatedKey : Option Item
deriving DecidableEq

/-- The `*dynamodb.Client` with the table behind it, as one request sees it: what `PutItem`
(table, item), `GetItem` (table, key; `none` for a nil `Item`) and `Query` answer. -/
structure Client where
  PutItem : String → Item → Except GoError Unit
  GetItem : String → Item → Except GoError (Option Item)
  Query : QueryInput → Except GoError QueryOutput

/-- A call made on the client. -/
inductive Call where
  | PutItem (table : String) (item : Item)
  | GetItem (table : String) (key : Item)
  | Query (input : QueryInput)
deriving DecidableEq

/-! ## What a request reads from outside the program -/

/-- The struct `CreateTaskRequest` of handlers.go. -/
structure CreateTaskRequest where
  Title : String
  Owner : String
deriving DecidableEq

/-- What a request reads from outside the program: the clock, the random UUID of `uuid.New()`,
and the library codecs `attributevalue.MarshalMap`, `attributevalue.UnmarshalMap` (into a
`DynamoDBTask`), `json.Marshal` of a `Task` and `json.Unmarshal` into a
`CreateTaskRequest`. -/
structure Env where
  now : Time
  newUUID : UUID
  MarshalMap : DynamoDBTask → Except GoError Item
  UnmarshalMap : Item → Except GoError DynamoDBTask
  jsonMarshalTask : Task → Except GoError String
  jsonUnmarshalCreateTaskRequest : String → Except GoError CreateTaskRequest

/-- The function `attributevalue.UnmarshalListOfMaps` into a `[]DynamoDBTask`: it decodes the
items in order and fails at the first one that fails. -/
def UnmarshalListOfMaps (env : Env) : List Item → Except GoError (List DynamoDBTask)
  | [] => .ok []
  | item :: rest =>
    match env.UnmarshalMap item with
    | .error err => .error err
    | .ok dbTask =>
      match UnmarshalListOfMaps env rest with
      | .error err => .error err
      | .ok dbTasks => .ok (dbTask :: dbTasks)

/-- The function `json.Marshal` on a `[]Task`: `null` for the nil slice, otherwise the elements
between brackets, separated by commas. -/
def jsonMarshalTasks (env : Env) : Slice Task → Except GoError String
  | .null => .ok "null"
  | .mk elems =>
    match elems.mapM env.jsonMarshalTask with
    | .error err => .error err
    | .ok bodies => .ok ("[" ++ ",".intercalate bodies ++ "]")

/-! ## store.go -/

/-- The struct `TaskStore`. -/
structure TaskStore where
  client : Client
  tableName : String

/-- The method `TaskStore.Add`: the error returned and the calls made on the client. -/
def TaskStore.Add (env : Env) (ts : TaskStore) (task : Task) : Option GoError × List Call :=
  let item := ToDynamoDBTask env.now task
  match env.MarshalMap item with
  | .error err => (some ("failed to marshal task: " ++ err), [])
  | .ok av =>
    match ts.client.PutItem ts.tableName av with
    | .error err => (some ("failed to put task in DynamoDB: " ++ err), [.PutItem ts.tableName av])
    | .ok _ => (none, [.PutItem ts.tableName av])

/-- The key that `TaskStore.GetByID` builds. -/
def primaryKey (taskID : UUID) (owner : String) : Item :=
  [("PK", .S ("#" ++ owner)), ("SK", .S ("#" ++ taskID.String))]

/-- The method `TaskStore.GetByID`: the pair `(Task, error)` and the calls made on the
client. -/
def TaskStore.GetByID (env : Env) (ts : TaskStore) (taskID : UUID) (owner : String) :
    (Task × Option GoError) × List Call :=
  let key := primaryKey taskID owner
  match ts.client.GetItem ts.tableName key with
  | .error err =>
    ((Task.zero, some ("failed to get task from DynamoDB: " ++ err)), [.GetItem ts.tableName key])
  | .ok none => ((Task.zero, some "task not found"), [.GetItem ts.tableName key])
  | .ok (some item) =>
    match env.UnmarshalMap item with
    | .error err =>
      ((Task.zero, some ("failed to unmarshal task: " ++ err)), [.GetItem ts.tableName key])
    | .ok dbTask =>
      match dbTask.ToTask with
      | (_, some err) =>
        ((Task.zero, some ("failed to convert to task: " ++ err)), [.GetItem ts.tableName key])
      | (task, none) => ((task, none), [.GetItem ts.tableName key])

/-- The query input that `listByStatus` creates. -/
def queryInput (ts : TaskStore) (owner : String) (status : TaskStatus) : QueryInput :=
  { TableName := ts.tableName,
    IndexName := "GS1",
    KeyConditionExpression := "GS1PK = :gspk",
    ExpressionAttributeValues := [(":gspk", .S ("#" ++ owner ++ "#" ++ status))],
    ExclusiveStartKey := none }

/-- The inner loop of `listByStatus`: `for _, dbTask := range dbTasks` converts each record and
appends the Task to `tasks`; the first record that fails to convert ends it with the error. -/
def convertTasks : List DynamoDBTask → Slice Task → Except GoError (Slice Task)
  | [], tasks => .ok tasks
  | dbTask :: rest, tasks =>
    match dbTask.ToTask with
    | (_, some err) => .error err
    | (task, none) => convertTasks rest (tasks.append task)

/-- What a loop that need not end has done after a bounded number of rounds. -/
inductive Run (α : Type) where
  | done (result : α)
  | running
deriving DecidableEq

/-- The loop `for { ... }` of `listByStatus`, run for at most `fuel` rounds, from the state
`input`, `tasks`, `lastKey`; `calls` are the calls made so far. -/
def listLoop (env : Env) (ts : TaskStore) :
    Nat → QueryInput → Slice Task → Option Item → List Call →
      Run (Slice Task × Option GoError) × List Call
  | 0, _, _, _, calls => (.running, calls)
  | fuel + 1, input, tasks, lastKey, calls =>
    let input :=
      match lastKey with
      | some key => { input with ExclusiveStartKey := some key }
      | none => input
    match ts.client.Query input with
    | .error err =>
      (.done (.null, some ("failed to query tasks: " ++ err)), calls ++ [.Query input])
    | .ok result =>
      match UnmarshalListOfMaps env result.Items with
      | .error err =>
        (.done (.null, some ("failed to unmarshal tasks: " ++ err)), calls ++ [.Query input])
      | .ok dbTasks =>
        match convertTasks dbTasks tasks with
        | .error err =>
          (.done (.null, some ("failed to convert to task: " ++ err)), calls ++ [.Query input])
        | .ok tasks =>
          match result.LastEvaluatedKey with
          | none => (.done (tasks, none), calls ++ [.Query input])
          | some key => listLoop env ts fuel input tasks (some key) (calls ++ [.Query input])

/-- The method `TaskStore.listByStatus`, its loop run for at most `fuel` rounds: the pair
`([]Task, error)` it returns and the calls made on the client. -/
def TaskStore.listByStatus (env : Env) (ts : TaskStore) (fuel : Nat) (owner : String)
    (status : TaskStatus) : Run (Slice Task × Option GoError) × List Call :=
  listLoop env ts fuel (queryInput ts owner status) .null none []

/-- The method `TaskStore.ListOpen`. -/
def TaskStore.ListOpen (env : Env) (ts : TaskStore) (fuel : Nat) (owner : String) :
    Run (Slice Task × Option GoError) × List Call :=
  ts.listByStatus env fuel owner TaskStatusOpen

/-- The method `TaskStore.ListClosed`. -/
def TaskStore.ListClosed (env : Env) (ts : TaskStore) (fuel : Nat) (owner : String) :
    Run (Slice Task × Option GoError) × List Call :=
  ts.listByStatus env fuel owner TaskStatusClosed

/-! ## handlers.go -/

/-- The fields of `events.APIGatewayProxyRequest` that the handlers read. The query parameters
are a `map[string]string`, held as its entries. -/
structure Request where
  Path : String
  HTTPMethod : String
  QueryStringParameters : List (String × String)
  Body : String
deriving DecidableEq

/-- The fields of `events.APIGatewayProxyResponse` that the handlers set. -/
structure Response where
  StatusCode : Nat
  Body : String
  Headers : List (String × String)
deriving DecidableEq

/-- The lookup `request.QueryStringParameters[name]`: the empty string when the key is
absent. -/
def Request.query (request : Request) (name : String) : String :=
  (request.QueryStringParameters.lookup name).getD ""

/-- The struct `API`; the store pointer may be nil (`&API{}`). -/
structure API where
  store : Option TaskStore

/-- How a handler ends: it returns `(response, error)`, it panics on a nil pointer, or the
pagination loop it waits for is still running after the rounds allowed. -/
inductive Outcome where
  | returned (response : Response) (err : Option GoError)
  | panicked
  | running
deriving DecidableEq

/-- The headers of every response: `map[string]string{"Content-Type": "application/json"}`. -/
def jsonHeaders : List (String × String) :=
  [("Content-Type", "application/json")]

/-- A response with a body made by `fmt.Sprintf` or a literal, and the JSON headers. -/
def respond (status : Nat) (body : String) : Outcome :=
  .returned ⟨status, body, jsonHeaders⟩ none

/-- The literal or format string `{"message": "<text>"}` with its text filled in. -/
def messageBody (text : String) : String :=
  "\x7b\"message\": \"" ++ text ++ "\"\x7d"

/-- The method `API.healthCheck`. -/
def API.healthCheck (_api : API) : Outcome × List Call :=
  (respond 200 (messageBody "OK"), [])

/-- A call of `ListOpen`, `ListClosed` or `GetByID` on `api.store`: each of them reads a field
of the store before it does anything else, so with a nil store it panics (`none`) and makes no
call on the client. -/
def API.withStore {α : Type} (api : API) (method : TaskStore → α × List Call) :
    Option α × List Call :=
  match api.store with
  | none => (none, [])
  | some store => (some (method store).1, (method store).2)

/-- The method `API.listTasks`. -/
def API.listTasks (env : Env) (api : API) (fuel : Nat) (request : Request) :
    Outcome × List Call :=
  let owner := request.query "owner"
  if owner = "" then (respond 400 (messageBody "Owner is required"), [])
  else
    let status := request.query "status"
    let listed :=
      if status = TaskStatusClosed then
        api.withStore (fun store => store.ListClosed env fuel owner)
      else api.withStore (fun store => store.ListOpen env fuel owner)
    match listed with
    | (none, calls) => (.panicked, calls)
    | (some .running, calls) => (.running, calls)
    | (some (.done (_, some err)), calls) =>
      (respond 500 (messageBody ("Failed to list tasks: " ++ err)), calls)
    | (some (.done (tasks, none)), calls) =>
      match jsonMarshalTasks env tasks with
      | .error err => (respond 500 (messageBody ("Failed to marshal tasks: " ++ err)), calls)
      | .ok body => (respond 200 body, calls)

/-- The method `API.getTask`. -/
def API.getTask (env : Env) (api : API) (taskIDStr : String) (request : Request) :
    Outcome × List Call :=
  match Parse taskIDStr with
  | .error err => (respond 400 (messageBody ("Invalid task ID: " ++ err)), [])
  | .ok taskID =>
    let owner := request.query "owner"
    if owner = "" then (respond 400 (messageBody "Owner is required"), [])
    else
      match api.withStore (fun store => store.GetByID env taskID owner) with
      | (none, calls) => (.panicked, calls)
      | (some (_, some err), calls) =>
        (respond 404 (messageBody ("Task not found: " ++ err)), calls)
      | (some (task, none), calls) =>
        match env.jsonMarshalTask task with
        | .error err => (respond 500 (messageBody ("Failed to marshal task: " ++ err)), calls)
        | .ok body => (respond 200 body, calls)

/-- The call `api.store.Add(ctx, task)`: with a nil store it returns the error of
`attributevalue.MarshalMap` if there is one and otherwise panics (`none`) when it reads
`ts.client`. -/
def API.add (env : Env) (api : API) (task : Task) : Option (Option GoError) × List Call :=
  match api.store with
  | none =>
    match env.MarshalMap (ToDynamoDBTask env.now task) with
    | .error err => (some (some ("failed to marshal task: " ++ err)), [])
    | .ok _ => (none, [])
  | some store => (some (store.Add env task).1, (store.Add env task).2)

/-- The method `API.createTask`. -/
def API.createTask (env : Env) (api : API) (request : Request) : Outcome × List Call :=
  match env.jsonUnmarshalCreateTaskRequest request.Body with
  | .error err => (respond 400 (messageBody ("Invalid request body: " ++ err)), [])
  | .ok createRequest =>
    if createRequest.Title = "" then (respond 400 (messageBody "Title is required"), [])
    else if createRequest.Owner = "" then (respond 400 (messageBody "Owner is required"), [])
    else
      let task := NewTask env.newUUID createRequest.Title createRequest.Owner
      match api.add env task with
      | (none, calls) => (.panicked, calls)
      | (some (some err), calls) =>
        (respond 500 (messageBody ("Failed to create task: " ++ err)), calls)
      | (some none, calls) =>
        match env.jsonMarshalTask task with
        | .error err => (respond 500 (messageBody ("Failed to marshal task: " ++ err)), calls)
        | .ok body => (respond 201 body, calls)

/-- The method `API.handleTasks`. -/
def API.handleTasks (env : Env) (api : API) (fuel : Nat) (method : String)
    (request : Request) : Outcome × List Call :=
  if method = "GET" then api.listTasks env fuel request
  else if method = "POST" then api.createTask env request
  else (respond 405 (messageBody "Method Not Allowed"), [])

/-- The method `API.handleTaskByID`. -/
def API.handleTaskByID (env : Env) (api : API) (method taskID : String) (request : Request) :
    Outcome × List Call :=
  if method = "GET" then api.getTask env taskID request
  else (respond 405 (messageBody "Method Not Allowed"), [])

/-- The function `strings.Split(s, "/")` on the characters of `s`. -/
def splitSlash : List Char → List (List Char)
  | [] => [[]]
  | c :: cs =>
    if c = '/' then [] :: splitSlash cs
    else
      match splitSlash cs with
      | [] => [[c]]
      | part :: parts => (c :: part) :: parts

/-- The method `API.HandleRequest`. -/
def API.HandleRequest (env : Env) (api : API) (fuel : Nat) (request : Request) :
    Outcome × List Call :=
  let path := request.Path
  let method := request.HTTPMethod
  if path = "/api/health-check/" ∧ method = "GET" then api.healthCheck
  else if "/api/tasks/".data.isPrefixOf path.data then
    let parts := (splitSlash path.data).map String.mk
    if parts.length > 3 ∧ parts.getD 3 "" ≠ "" then
      api.handleTaskByID env method (parts.getD 3 "") request
    else api.handleTasks env fuel method request
  else (respond 404 (messageBody "Not Found"), [])

/-! ## The pages of a query, as the specification describes them -/

/-- Spec side: the pages with which the backend answers the query `input` when the first query
starts at `cursor` and each later one resumes from the cursor of the page before; at most `n`
pages are read, and the last page is the one that carries no cursor. -/
def pagesFrom (client : Client) (input : QueryInput) :
    Nat → Option Item → Run (Except GoError (List QueryOutput))
  | 0, _ => .running
  | n + 1, cursor =>
    match client.Query { input with ExclusiveStartKey := cursor } with
    | .error err => .done (.error err)
    | .ok page =>
      match page.LastEvaluatedKey with
      | none => .done (.ok [page])
      | some key =>
        match pagesFrom client input n (some key) with
        | .running => .running
        | .done (.error err) => .done (.error err)
        | .done (.ok pages) => .done (.ok (page :: pages))

/-- Spec side: the queries that fetch `pages`, the first from `cursor` and each later one from
the cursor of the page before. -/
def queriesFor (input : QueryInput) : Option Item → List QueryOutput → List Call
  | _, [] => []
  | cursor, page :: rest =>
    .Query { input with ExclusiveStartKey := cursor }
      :: queriesFor input page.LastEvaluatedKey rest

/-- Spec side: the Tasks that a list of records converts to, in order; an error when one record
does not convert. -/
def toTasks : List DynamoDBTask → Except GoError (List Task)
  | [] => .ok []
  | dbTask :: rest =>
    match dbTask.ToTask with
    | (_, some err) => .error err
    | (task, none) =>
      match toTasks rest with
      | .error err => .error err
      | .ok tasks => .ok (task :: tasks)

/-- Spec side: the Tasks that the items of one page decode to. -/
def decodePage (env : Env) (page : QueryOutput) : Except GoError (List Task) :=
  match UnmarshalListOfMaps env page.Items with
  | .error err => .error err
  | .ok dbTasks => toTasks dbTasks

/-- Spec side: the in-order concatenation of the decoded items of all pages; an error when an
item of a page does not decode. -/
def decodePages (env : Env) : List QueryOutput → Except GoError (List Task)
  | [] => .ok []
  | page :: rest =>
    match decodePage env page with
    | .error err => .error err
    | .ok tasks =>
      match decodePages env rest with
      | .error err => .error err
      | .ok more => .ok (tasks ++ more)

/-! ## The routes, as the specification describes them -/

/-- Spec side: the path lies under the tasks prefix `/api/tasks/`. -/
def underTasks (path : String) : Prop :=
  ∃ rest : List Char, path.data = "/api/tasks/".data ++ rest

/-- Spec side: the ID segment of a path under the tasks prefix, the text between the prefix and
the next slash; it is empty when nothing or a slash follows the prefix. -/
def idSegment (path : String) : String :=
  String.mk ((path.data.drop "/api/tasks/".length).takeWhile (fun c => c ≠ '/'))

/-! ## The order of instants, as the specification describes it -/

/-- Spec side: the instant `t1` is before the instant `t2`, `t1 < t2`. -/
def Time.before (t1 t2 : Time) : Prop :=
  t1.unixSec < t2.unixSec ∨ (t1.unixSec = t2.unixSec ∧ t1.nsec < t2.nsec)

instance (t1 t2 : Time) : Decidable (Time.before t1 t2) :=
  inferInstanceAs (Decidable (_ ∨ _))

/-! ## Sample values -/

/-- A task with a title and an owner, as the create operation builds it. -/
def sampleTask : Task :=
  NewTask ⟨[0x12, 0x3e, 0x45, 0x67, 0xe8, 0x9b, 0x12, 0xd3, 0xa4, 0x56, 0x42, 0x66, 0x14, 0x17,
    0x40, 0x00], rfl⟩ "Buy milk" "a@x.com"

/-- A closed task of the same owner. -/
def closedTask : Task :=
  ⟨⟨[0x22, 0x3e, 0x45, 0x67, 0xe8, 0x9b, 0x12, 0xd3, 0xa4, 0x56, 0x42, 0x66, 0x14, 0x17,
    0x40, 0x01], rfl⟩, "Pay rent", TaskStatusClosed, "a@x.com"⟩

/-- An open task of another owner. -/
def otherTask : Task :=
  NewTask ⟨[0x32, 0x3e, 0x45, 0x67, 0xe8, 0x9b, 0x12, 0xd3, 0xa4, 0x56, 0x42, 0x66, 0x14, 0x17,
    0x40, 0x02], rfl⟩ "Walk dog" "b@x.com"

/-- The in-memory store after `sampleTask` was added to a new store. -/
def sampleStore : MockTaskStore :=
  (NewMockTaskStore.Add sampleTask).1

/-- The in-memory store after the three sample tasks were added to a new store. -/
def mixedStore : MockTaskStore :=
  (((NewMockTaskStore.Add sampleTask).1.Add closedTask).1.Add otherTask).1

/-- A codec in the manner of `attributevalue.MarshalMap`: one string attribute per field. -/
def sampleMarshalMap (d : DynamoDBTask) : Except GoError Item :=
  .ok [("PK", .S d.PK), ("SK", .S d.SK), ("GS1PK", .S d.GS1PK), ("GS1SK", .S d.GS1SK),
    ("ID", .S d.ID), ("Title", .S d.Title), ("Owner", .S d.Owner), ("Status", .S d.Status)]

/-- The string field `name` of an item: empty when the attribute is absent or NULL, an error
when it is no string. -/
def stringField (item : Item) (name : String) : Except GoError String :=
  match item.lookup name with
  | none => .ok ""
  | some .NULL => .ok ""
  | some (.S value) => .ok value
  | some _ => .error ("unmarshal failed, cannot unmarshal into Go value type string: " ++ name)

/-- A codec in the manner of `attributevalue.UnmarshalMap` into a `DynamoDBTask`. -/
def sampleUnmarshalMap (item : Item) : Except GoError DynamoDBTask := do
  let pk ← stringField item "PK"
  let sk ← stringField item "SK"
  let gs1pk ← stringField item "GS1PK"
  let gs1sk ← stringField item "GS1SK"
  let id ← stringField item "ID"
  let title ← stringField item "Title"
  let owner ← stringField item "Owner"
  let status ← stringField item "Status"
  pure ⟨pk, sk, gs1pk, gs1sk, id, title, owner, status⟩

/-- The JSON object of a Task whose texts need no escape. -/
def sampleJsonTask (t : Task) : Except GoError String :=
  .ok ("\x7b\"id\":\"" ++ t.ID.String ++ "\",\"title\":\"" ++ t.Title ++ "\",\"status\":\""
    ++ t.Status ++ "\",\"owner\":\"" ++ t.Owner ++ "\"\x7d")

/-- A decoder of request bodies that knows two bodies: a well-formed one and one with an empty
title; any other body is taken as malformed. -/
def sampleJsonCreate (body : String) : Except GoError CreateTaskRequest :=
  if body = "\x7b\"title\":\"Buy milk\",\"owner\":\"a@x.com\"\x7d" then
    .ok ⟨"Buy milk", "a@x.com"⟩
  else if body = "\x7b\"owner\":\"a@x.com\"\x7d" then .ok ⟨"", "a@x.com"⟩
  else .error "invalid character"

/-- An environment: the clock at 2023-01-01T00:00:00Z and the sample codecs. -/
def sampleEnv : Env :=
  { now := ⟨1672531200, 0⟩,
    newUUID := sampleTask.ID,
    MarshalMap := sampleMarshalMap,
    UnmarshalMap := sampleUnmarshalMap,
    jsonMarshalTask := sampleJsonTask,
    jsonUnmarshalCreateTaskRequest := sampleJsonCreate }

/-- The item that the sample codec writes for a Task at the time of the sample clock. -/
def itemOf (t : Task) : Item :=
  [("PK", .S ("#" ++ t.Owner)), ("SK", .S ("#" ++ t.ID.String)),
    ("GS1PK", .S ("#" ++ t.Owner ++ "#" ++ t.Status)), ("GS1SK", .S "#2023-01-01T00:00:00Z"),
    ("ID", .S t.ID.String), ("Title", .S t.Title), ("Owner", .S t.Owner),
    ("Status", .S t.Status)]

/-- A second open task of the first owner. -/
def secondTask : Task :=
  NewTask ⟨[0x42, 0x3e, 0x45, 0x67, 0xe8, 0x9b, 0x12, 0xd3, 0xa4, 0x56, 0x42, 0x66, 0x14, 0x17,
    0x40, 0x03], rfl⟩ "Call mum" "a@x.com"

/-- The cursor after the first page of the paged backend. -/
def sampleCursor : Item :=
  [("PK", .S "#a@x.com"), ("SK", .S ("#" ++ sampleTask.ID.String))]

/-- The first page of the paged backend: one item and a cursor. -/
def firstPage : QueryOutput :=
  ⟨[itemOf sampleTask], some sampleCursor⟩

/-- The last page of the paged backend: one item and no cursor. -/
def lastPage : QueryOutput :=
  ⟨[itemOf secondTask], none⟩

/-- A backend that holds two open tasks of `a@x.com` and answers the query for them in two
pages; every other partition is empty, and no item is found by key. -/
def pagedClient : Client :=
  { PutItem := fun _ _ => .ok (),
    GetItem := fun _ _ => .ok none,
    Query := fun input =>
      if input.ExpressionAttributeValues = [(":gspk", .S "#a@x.com#OPEN")] then
        if input.ExclusiveStartKey = none then .ok firstPage
        else if input.ExclusiveStartKey = some sampleCursor then .ok lastPage
        else .error "ValidationException"
      else .ok ⟨[], none⟩ }

/-- A backend that is failing: `GetItem` fails, and so does the query for the page after the
first one. -/
def brokenClient : Client :=
  { PutItem := fun _ _ => .ok (),
    GetItem := fun _ _ => .error "RequestError",
    Query := fun input =>
      if input.ExclusiveStartKey = none then .ok firstPage
      else .error "RequestError" }

/-- A backend with no items at all. -/
def emptyClient : Client :=
  { PutItem := fun _ _ => .ok (),
    GetItem := fun _ _ => .ok none,
    Query := fun _ => .ok ⟨[], none⟩ }

/-- A list request without owner. -/
def requestWithoutOwner : Request :=
  ⟨"/api/tasks/", "GET", [("status", "CLOSED")], ""⟩

/-- The list request `GET /api/tasks/?owner=a@x.com`. -/
def listRequest : Request :=
  ⟨"/api/tasks/", "GET", [("owner", "a@x.com")], ""⟩

/-- The request `GET /api/tasks/123e4567-e89b-12d3-a456-426614174000?owner=a@x.com`. -/
def getRequest : Request :=
  ⟨"/api/tasks/123e4567-e89b-12d3-a456-426614174000", "GET", [("owner", "a@x.com")], ""⟩

/-- The create request `POST /api/tasks/` with a title and an owner. -/
def createRequest : Request :=
  ⟨"/api/tasks/", "POST", [], "\x7b\"title\":\"Buy milk\",\"owner\":\"a@x.com\"\x7d"⟩

/-- A create request whose body has no title. -/
def createRequestWithoutTitle : Request :=
  ⟨"/api/tasks/", "POST", [], "\x7b\"owner\":\"a@x.com\"\x7d"⟩

/-- A create request whose body is no JSON. -/
def createRequestMalformed : Request :=
  ⟨"/api/tasks/", "POST", [], "title=Buy milk"⟩

/-- The request `GET /api/tasks/not-a-uuid`, without owner. -/
def getRequestBadID : Request :=
  ⟨"/api/tasks/not-a-uuid", "GET", [], ""⟩

/-- The request `DELETE /api/tasks/123e4567-e89b-12d3-a456-426614174000`. -/
def deleteRequest : Request :=
  ⟨"/api/tasks/123e4567-e89b-12d3-a456-426614174000", "DELETE", [("owner", "a@x.com")], ""⟩

/-- The request `GET /unknown/`. -/
def unknownRequest : Request :=
  ⟨"/unknown/", "GET", [], ""⟩

/-- The request `GET /api/not-found/`. -/
def notFoundRequest : Request :=
  ⟨"/api/not-found/", "GET", [], ""⟩

/-- The request `GET /health/`. -/
def healthRequest : Request :=
  ⟨"/health/", "GET", [], ""⟩

/-- The request `GET /api/health-check/`. -/
def healthCheckRequest : Request :=
  ⟨"/api/health-check/", "GET", [], ""⟩

/-- The first sample task with another title: same owner, same id. -/
def retitledTask : Task :=
  ⟨sampleTask.ID, "Buy oat milk", TaskStatusOpen, "a@x.com"⟩

/-- The instant 2023-01-01T00:00:00Z. -/
def newYear : Time := ⟨1672531200, 0⟩

/-- Half a second after `newYear`. -/
def newYearHalf : Time := ⟨1672531200, 500000000⟩

/-- One second after `newYear`. -/
def newYearNext : Time := ⟨1672531201, 0⟩

/-- The instant 9999-12-31T23:59:59Z, the last second of the year 9999. -/
def lastOf9999 : Time := ⟨253402300799, 0⟩

/-- The instant 10000-01-01T00:00:00Z, the first second of the year 10000. -/
def firstOf10000 : Time := ⟨253402300800, 0⟩

/-- The instant -0002-01-01T00:00:00Z, in the third year before the year 1. -/
def yearMinus2 : Time := ⟨-62230291200, 0⟩

/-- The instant -0001-01-01T00:00:00Z, one year after `yearMinus2`. -/
def yearMinus1 : Time := ⟨-62198755200, 0⟩

/-! ## Lemmas: strings -/

theorem append_left_cancel {p a b : String} (h : p ++ a = p ++ b) : a = b := by
  have h2 := congrArg String.data h
  simp only [String.data_append] at h2
  exact String.ext (List.append_cancel_left h2)

/-! ## Lemmas: `uuid.Parse` inverts `UUID.String` -/

set_option maxRecDepth 100000 in
theorem xtob_hexByte (v : Fin 256) : xtob (hexHi v) (hexLo v) = some v := by
  revert v; decide

set_option maxRecDepth 100000 in
theorem hexByte_ascii (v : Fin 256) : (hexHi v).toNat < 128 ∧ (hexLo v).toNat < 128 := by
  revert v; decide

theorem list16 {α : Type} (l : List α) (h : l.length = 16) :
    ∃ a0 a1 a2 a3 a4 a5 a6 a7 a8 a9 a10 a11 a12 a13 a14 a15,
      l = [a0, a1, a2, a3, a4, a5, a6, a7, a8, a9, a10, a11, a12, a13, a14, a15] := by
  match l, h with
  | [a0, a1, a2, a3, a4, a5, a6, a7, a8, a9, a10, a11, a12, a13, a14, a15], _ =>
    exact ⟨a0, a1, a2, a3, a4, a5, a6, a7, a8, a9, a10, a11, a12, a13, a14, a15, rfl⟩

theorem utf8Size_ascii (c : Char) (h : c.toNat < 128) : c.utf8Size = 1 := by
  have h1 : c.val ≤ 127 := by
    rw [UInt32.le_def, BitVec.le_def]
    have h2 : c.val.toBitVec.toNat < 128 := h
    have h3 : (127 : UInt32).toBitVec.toNat = 127 := rfl
    omega
  simp [Char.utf8Size, h1]

theorem utf8Len_ascii (l : List Char) (h : isASCII l = true) : String.utf8Len l = l.length := by
  induction l with
  | nil => rfl
  | cons c cs ih =>
    simp only [isASCII, List.all_cons, Bool.and_eq_true, decide_eq_true_eq] at h
    have ih2 := ih (by simpa [isASCII] using h.2)
    simp only [String.utf8Len_cons, List.length_cons, utf8Size_ascii c h.1, ih2]

theorem encodeHex_ascii (u : UUID) : isASCII (encodeHex u) = true := by
  obtain ⟨l, hl⟩ := u
  obtain ⟨a0, a1, a2, a3, a4, a5, a6, a7, a8, a9, a10, a11, a12, a13, a14, a15, rfl⟩ :=
    list16 l hl
  simp [isASCII, encodeHex, hexEncode, hexByte, hexByte_ascii]

theorem encodeHex_length (u : UUID) : (encodeHex u).length = 36 := by
  obtain ⟨l, hl⟩ := u
  obtain ⟨a0, a1, a2, a3, a4, a5, a6, a7, a8, a9, a10, a11, a12, a13, a14, a15, rfl⟩ :=
    list16 l hl
  simp [encodeHex, hexEncode, hexByte]

theorem parseDashed_encodeHex (u : UUID) : parseDashed (encodeHex u) = .ok u := by
  obtain ⟨l, hl⟩ := u
  obtain ⟨a0, a1, a2, a3, a4, a5, a6, a7, a8, a9, a10, a11, a12, a13, a14, a15, rfl⟩ :=
    list16 l hl
  simp [encodeHex, hexEncode, hexByte, parseDashed, byteAt, dashedOffsets, parseLoop,
    xtob_hexByte, UUID.set, UUID.zero, List.enum, List.enumFrom]

theorem Parse_String (u : UUID) : Parse u.String = .ok u := by
  have hs : String.utf8Len (encodeHex u) = 36 := by
    rw [utf8Len_ascii _ (encodeHex_ascii u), encodeHex_length]
  simp [Parse, hs, UUID.String, encodeHex_ascii, parseDashed_encodeHex]

theorem String_injective {u v : UUID} (h : u.String = v.String) : u = v := by
  have hu := Parse_String u
  rw [h, Parse_String] at hu
  exact (Except.ok.inj hu).symm

/-! ## The key-mapper -/

/-- C1: for every Task `t` and clock reading `now`, `ToDynamoDBTask` yields the record with
PK `"#"+t.Owner`, SK `"#"+t.ID.String()`, GS1PK `"#"+t.Owner+"#"+t.Status`, GS1SK `"#"` followed
by the RFC 3339 timestamp of `now`, ID `t.ID.String()`, and the Title, Owner and Status of
`t`. -/
theorem toDynamoDBTask_fields (now : Time) (t : Task) :
    (ToDynamoDBTask now t).PK = "#" ++ t.Owner ∧
    (ToDynamoDBTask now t).SK = "#" ++ t.ID.String ∧
    (ToDynamoDBTask now t).GS1PK = "#" ++ t.Owner ++ "#" ++ t.Status ∧
    (ToDynamoDBTask now t).GS1SK = "#" ++ formatRFC3339 now ∧
    (ToDynamoDBTask now t).ID = t.ID.String ∧
    (ToDynamoDBTask now t).Title = t.Title ∧
    (ToDynamoDBTask now t).Owner = t.Owner ∧
    (ToDynamoDBTask now t).Status = t.Status :=
  ⟨rfl, rfl, rfl, rfl, rfl, rfl, rfl, rfl⟩

/-- C9: `ToTask` fails exactly when the ID of the record does not parse as a UUID; when it
succeeds the Task holds the parsed UUID and the Title, Status and Owner of the record, whatever
PK, SK, GS1PK and GS1SK are; when it fails the Task returned is the zero Task. -/
theorem toTask_spec (r : DynamoDBTask) :
    (r.ToTask.2 ≠ none ↔ ∃ err, Parse r.ID = .error err) ∧
    (∀ id, Parse r.ID = .ok id → r.ToTask = (⟨id, r.Title, r.Status, r.Owner⟩, none)) ∧
    (∀ pk sk gs1pk gs1sk,
      DynamoDBTask.ToTask ⟨pk, sk, gs1pk, gs1sk, r.ID, r.Title, r.Owner, r.Status⟩
        = r.ToTask) ∧
    (r.ToTask.2 ≠ none → r.ToTask.1 = Task.zero) := by
  refine ⟨?_, ?_, ?_, ?_⟩
  · cases h : Parse r.ID <;> simp [DynamoDBTask.ToTask, h]
  · intro id h
    simp [DynamoDBTask.ToTask, h]
  · intro pk sk gs1pk gs1sk
    rfl
  · cases h : Parse r.ID <;> simp [DynamoDBTask.ToTask, h]

/-- C8, as stated, fails: the record written at 2023-01-01T00:00:00Z for a task with a title
and an owner, decoded with `ToTask` and encoded again one second later, is a different record
(its GS1SK moved from `#2023-01-01T00:00:00Z` to `#2023-01-01T00:00:01Z`). -/
theorem roundtrip_record_fails :
    sampleTask.Title ≠ "" ∧ sampleTask.Owner ≠ "" ∧
    (ToDynamoDBTask ⟨1672531200, 0⟩ sampleTask).ToTask.2 = none ∧
    ToDynamoDBTask ⟨1672531201, 0⟩ (ToDynamoDBTask ⟨1672531200, 0⟩ sampleTask).ToTask.1
      ≠ ToDynamoDBTask ⟨1672531200, 0⟩ sampleTask := by
  decide

/-- C8, amended: for the record `r` that `ToDynamoDBTask` writes for a Task at the instant
`now0`, decoding `r` with `ToTask` succeeds and encoding the result at the instant `now` gives
back PK, SK, GS1PK, ID, Title, Owner and Status of `r`; GS1SK is `"#"` followed by the timestamp
of `now`, so the whole record is `r` exactly when `now` and `now0` have the same timestamp. -/
theorem roundtrip_record_except_sort_key (now0 now : Time) (t : Task) :
    (ToDynamoDBTask now0 t).ToTask.2 = none ∧
    (ToDynamoDBTask now (ToDynamoDBTask now0 t).ToTask.1).PK = (ToDynamoDBTask now0 t).PK ∧
    (ToDynamoDBTask now (ToDynamoDBTask now0 t).ToTask.1).SK = (ToDynamoDBTask now0 t).SK ∧
    (ToDynamoDBTask now (ToDynamoDBTask now0 t).ToTask.1).GS1PK = (ToDynamoDBTask now0 t).GS1PK ∧
    (ToDynamoDBTask now (ToDynamoDBTask now0 t).ToTask.1).ID = (ToDynamoDBTask now0 t).ID ∧
    (ToDynamoDBTask now (ToDynamoDBTask now0 t).ToTask.1).Title = (ToDynamoDBTask now0 t).Title ∧
    (ToDynamoDBTask now (ToDynamoDBTask now0 t).ToTask.1).Owner = (ToDynamoDBTask now0 t).Owner ∧
    (ToDynamoDBTask now (ToDynamoDBTask now0 t).ToTask.1).Status
      = (ToDynamoDBTask now0 t).Status ∧
    (ToDynamoDBTask now (ToDynamoDBTask now0 t).ToTask.1).GS1SK = "#" ++ formatRFC3339 now ∧
    (ToDynamoDBTask now (ToDynamoDBTask now0 t).ToTask.1 = ToDynamoDBTask now0 t
      ↔ formatRFC3339 now = formatRFC3339 now0) := by
  have h : (ToDynamoDBTask now0 t).ToTask = (t, none) := by
    simp [DynamoDBTask.ToTask, ToDynamoDBTask, Parse_String]
  rw [h]
  refine ⟨rfl, rfl, rfl, rfl, rfl, rfl, rfl, rfl, rfl, ?_⟩
  constructor
  · intro e
    have e2 := congrArg DynamoDBTask.GS1SK e
    exact append_left_cancel e2
  · intro e
    simp [ToDynamoDBTask, e]

/-! ## The in-memory store -/

theorem add_tasks_lookup (m : MockTaskStore) (task : Task) :
    (m.Add task).1.tasks.lookup task.Owner
      = some (((m.tasks.lookup task.Owner).getD ∅).insert task.ID.String task) := by
  cases h : m.tasks.lookup task.Owner <;> simp [MockTaskStore.Add, h]

theorem add_tasks_lookup_ne (m : MockTaskStore) (task : Task) (owner : String)
    (h : owner ≠ task.Owner) :
    (m.Add task).1.tasks.lookup owner = m.tasks.lookup owner := by
  cases h2 : m.tasks.lookup task.Owner <;>
    simp [MockTaskStore.Add, h2, AList.lookup_insert_ne h]

theorem consistent_new : NewMockTaskStore.Consistent := by
  intro e he
  simp [NewMockTaskStore] at he

theorem consistent_lookup {m : MockTaskStore} (hm : m.Consistent) {owner key : String}
    {ownerTasks : GoMap Task} {t : Task} (h1 : m.tasks.lookup owner = some ownerTasks)
    (h2 : ownerTasks.lookup key = some t) : t.Owner = owner ∧ t.ID.String = key := by
  have e1 : (⟨owner, ownerTasks⟩ : Sigma fun _ : String => GoMap Task) ∈ m.tasks.entries :=
    AList.mem_lookup_iff.1 h1
  have e2 : (⟨key, t⟩ : Sigma fun _ : String => Task) ∈ ownerTasks.entries :=
    AList.mem_lookup_iff.1 h2
  exact hm _ e1 _ e2

theorem consistent_of_lookup {m : MockTaskStore}
    (h : ∀ owner ownerTasks key t, m.tasks.lookup owner = some ownerTasks →
      ownerTasks.lookup key = some t → t.Owner = owner ∧ t.ID.String = key) :
    m.Consistent := by
  rintro ⟨owner, ownerTasks⟩ he ⟨key, t⟩ hf
  exact h owner ownerTasks key t (AList.mem_lookup_iff.2 he) (AList.mem_lookup_iff.2 hf)

theorem consistent_add {m : MockTaskStore} (hm : m.Consistent) (task : Task) :
    (m.Add task).1.Consistent := by
  apply consistent_of_lookup
  intro owner ownerTasks key t h1 h2
  by_cases ho : owner = task.Owner
  · subst ho
    rw [add_tasks_lookup] at h1
    cases Option.some.inj h1
    by_cases hk : key = task.ID.String
    · subst hk
      rw [AList.lookup_insert] at h2
      cases Option.some.inj h2
      exact ⟨rfl, rfl⟩
    · rw [AList.lookup_insert_ne hk] at h2
      cases h3 : m.tasks.lookup task.Owner with
      | none => simp [h3] at h2
      | some inner =>
        simp only [h3, Option.getD_some] at h2
        exact consistent_lookup hm h3 h2
  · rw [add_tasks_lookup_ne m task owner ho] at h1
    exact consistent_lookup hm h1 h2

theorem consistent_of_reachable {m : MockTaskStore} (h : m.Reachable) : m.Consistent := by
  induction h with
  | new => exact consistent_new
  | add m task _ ih => exact consistent_add ih task

theorem mem_tasksOf {m : MockTaskStore} {owner : String} {t : Task} :
    t ∈ m.tasksOf owner ↔
      ∃ ownerTasks key, m.tasks.lookup owner = some ownerTasks ∧
        ownerTasks.lookup key = some t := by
  unfold MockTaskStore.tasksOf
  cases h : m.tasks.lookup owner with
  | none => simp
  | some ownerTasks =>
    simp only [GoMap.values, List.mem_map]
    constructor
    · rintro ⟨⟨key, t2⟩, he, rfl⟩
      exact ⟨ownerTasks, key, rfl, AList.mem_lookup_iff.2 he⟩
    · rintro ⟨inner, key, hi, hk⟩
      cases Option.some.inj hi
      exact ⟨⟨key, t⟩, AList.mem_lookup_iff.1 hk, rfl⟩

/-- C2: on every store, after `Add(NewTask(id, title, owner))` the call `GetByID(id, owner)`
returns a nil error and the Task with that id, title and owner and status OPEN (for every title
and owner, the non-empty ones included). -/
theorem getByID_after_add (m : MockTaskStore) (id : UUID) (title owner : String) :
    (m.Add (NewTask id title owner)).2 = none ∧
    (m.Add (NewTask id title owner)).1.GetByID id owner
      = (⟨id, title, TaskStatusOpen, owner⟩, none) := by
  refine ⟨rfl, ?_⟩
  have h := add_tasks_lookup m (NewTask id title owner)
  simp only [NewTask] at h ⊢
  simp [MockTaskStore.GetByID, h, AList.lookup_insert]

/-- C3: on a store that files every task under its own owner and id, `GetByID(id, owner)` fails
exactly when no task with that id is stored under that owner, and the failure is the zero Task
with the error "task not found"; on a new store it fails for every id and owner; and where it
fails for an owner it still fails after a task with the same id is added under another
owner. -/
theorem getByID_fails_iff (m : MockTaskStore) (hm : m.Consistent) (id : UUID) (owner : String) :
    ((m.GetByID id owner).2 ≠ none ↔ ¬ ∃ t ∈ m.tasksOf owner, t.ID = id) ∧
    ((m.GetByID id owner).2 ≠ none →
      m.GetByID id owner = (Task.zero, some "task not found")) ∧
    (NewMockTaskStore.GetByID id owner = (Task.zero, some "task not found")) ∧
    (∀ title status o1, o1 ≠ owner → (m.GetByID id owner).2 ≠ none →
      (m.Add ⟨id, title, status, o1⟩).1.GetByID id owner
        = (Task.zero, some "task not found")) := by
  have hfail : (m.GetByID id owner).2 ≠ none →
      m.GetByID id owner = (Task.zero, some "task not found") := by
    unfold MockTaskStore.GetByID
    cases h1 : m.tasks.lookup owner with
    | none => simp
    | some ownerTasks => cases h2 : ownerTasks.lookup id.String <;> simp [h2]
  refine ⟨?_, hfail, ?_, ?_⟩
  · constructor
    · rintro hne ⟨t, ht, rfl⟩
      obtain ⟨ownerTasks, key, h1, h2⟩ := mem_tasksOf.1 ht
      have hk := (consistent_lookup hm h1 h2).2
      subst hk
      apply hne
      simp [MockTaskStore.GetByID, h1, h2]
    · intro hno
      unfold MockTaskStore.GetByID
      cases h1 : m.tasks.lookup owner with
      | none => simp
      | some ownerTasks =>
        cases h2 : ownerTasks.lookup id.String with
        | none => simp [h2]
        | some t =>
          exfalso
          apply hno
          refine ⟨t, mem_tasksOf.2 ⟨ownerTasks, id.String, h1, h2⟩, ?_⟩
          exact String_injective (consistent_lookup hm h1 h2).2
  · simp [MockTaskStore.GetByID, NewMockTaskStore]
  · intro title status o1 ho hne
    have hl := add_tasks_lookup_ne m ⟨id, title, status, o1⟩ owner (Ne.symm ho)
    have e : (m.Add ⟨id, title, status, o1⟩).1.GetByID id owner = m.GetByID id owner := by
      simp only [MockTaskStore.GetByID, hl]
    rw [e]
    exact hfail hne

/-- Witness of C3: the store that holds one task of owner `a@x.com`, asked for that id under
the owner `b@x.com`. -/
theorem getByID_fails_iff_witness :
    sampleStore.Consistent ∧
    ((sampleStore.GetByID sampleTask.ID "b@x.com").2 ≠ none
      ↔ ¬ ∃ t ∈ sampleStore.tasksOf "b@x.com", t.ID = sampleTask.ID) :=
  ⟨by decide, (getByID_fails_iff sampleStore (by decide) sampleTask.ID "b@x.com").1⟩

theorem filterByStatus_toList (status : TaskStatus) (order : List Task) (acc : Slice Task) :
    (filterByStatus status order acc).toList
      = acc.toList ++ order.filter (fun t => t.Status = status) := by
  induction order generalizing acc with
  | nil => simp [filterByStatus]
  | cons t rest ih =>
    rw [filterByStatus, ih]
    by_cases h : t.Status = status <;> simp [h, Slice.append, Slice.toList]

theorem listByStatus_perm (m : MockTaskStore) (owner : String) (order : List Task)
    (hord : m.RangeOrder owner order) (status : TaskStatus) :
    (m.listByStatus order owner status).2 = none ∧
    (m.listByStatus order owner status).1.toList.Perm
      ((m.tasksOf owner).filter (fun t => t.Status = status)) := by
  unfold MockTaskStore.RangeOrder MockTaskStore.tasksOf at hord
  unfold MockTaskStore.listByStatus MockTaskStore.tasksOf
  cases h : m.tasks.lookup owner with
  | none => simp [Slice.toList]
  | some ownerTasks =>
    rw [h] at hord
    refine ⟨rfl, ?_⟩
    have e : (filterByStatus status order .null).toList
        = order.filter (fun t => t.Status = status) := by
      rw [filterByStatus_toList]
      rfl
    show (filterByStatus status order .null).toList.Perm _
    rw [e]
    exact hord.filter _

/-- C4: for every store and owner, whatever the order in which the map is visited, `ListOpen`
returns a nil error and, up to order, exactly the tasks stored under the owner whose status is
OPEN, each as often as it is stored, and `ListClosed` exactly those whose status is CLOSED; on
a store that files every task under its own owner, every task returned belongs to the owner
asked for. -/
theorem list_open_closed_mock (m : MockTaskStore) (owner : String) (order : List Task)
    (hord : m.RangeOrder owner order) :
    (m.ListOpen order owner).2 = none ∧
    (m.ListOpen order owner).1.toList.Perm
      ((m.tasksOf owner).filter (fun t => t.Status = TaskStatusOpen)) ∧
    (m.ListClosed order owner).2 = none ∧
    (m.ListClosed order owner).1.toList.Perm
      ((m.tasksOf owner).filter (fun t => t.Status = TaskStatusClosed)) ∧
    (m.Consistent → ∀ t, t ∈ (m.ListOpen order owner).1.toList ∨
      t ∈ (m.ListClosed order owner).1.toList → t.Owner = owner) := by
  have ho := listByStatus_perm m owner order hord TaskStatusOpen
  have hc := listByStatus_perm m owner order hord TaskStatusClosed
  refine ⟨ho.1, ho.2, hc.1, hc.2, ?_⟩
  intro hm t ht
  have hmem : t ∈ m.tasksOf owner := by
    rcases ht with ht | ht
    · exact (List.mem_filter.1 (ho.2.subset ht)).1
    · exact (List.mem_filter.1 (hc.2.subset ht)).1
  obtain ⟨ownerTasks, key, h1, h2⟩ := mem_tasksOf.1 hmem
  exact (consistent_lookup hm h1 h2).1

/-- Witness of C4: the store with an open and a closed task of one owner and a task of another
owner, visited closed task first. -/
theorem list_open_closed_mock_witness :
    mixedStore.RangeOrder "a@x.com" [closedTask, sampleTask] ∧
    mixedStore.Consistent ∧
    (mixedStore.ListOpen [closedTask, sampleTask] "a@x.com").1 = .mk [sampleTask] ∧
    (mixedStore.ListClosed [closedTask, sampleTask] "a@x.com").1 = .mk [closedTask] ∧
    (mixedStore.ListOpen [closedTask, sampleTask] "a@x.com").1.toList.Perm
      ((mixedStore.tasksOf "a@x.com").filter (fun t => t.Status = TaskStatusOpen)) ∧
    (∀ t, t ∈ (mixedStore.ListOpen [closedTask, sampleTask] "a@x.com").1.toList ∨
      t ∈ (mixedStore.ListClosed [closedTask, sampleTask] "a@x.com").1.toList →
      t.Owner = "a@x.com") :=
  ⟨by decide, by decide, by decide, by decide,
    (list_open_closed_mock mixedStore "a@x.com" [closedTask, sampleTask] (by decide)).2.1,
    (list_open_closed_mock mixedStore "a@x.com" [closedTask, sampleTask] (by decide)).2.2.2.2
      (by decide)⟩

/-! ## The DynamoDB store: pagination -/

theorem pagesFrom_update (client : Client) (input : QueryInput) (x : Option Item) (n : Nat)
    (c : Option Item) :
    pagesFrom client { input with ExclusiveStartKey := x } n c = pagesFrom client input n c := by
  induction n generalizing c with
  | zero => rfl
  | succ n ih => simp only [pagesFrom, ih]

theorem queriesFor_update (input : QueryInput) (x : Option Item) (c : Option Item)
    (pages : List QueryOutput) :
    queriesFor { input with ExclusiveStartKey := x } c pages = queriesFor input c pages := by
  induction pages generalizing c with
  | nil => rfl
  | cons page rest ih => simp only [queriesFor, ih]

theorem resume_eq (input : QueryInput) (cursor : Option Item)
    (h : cursor = none → input.ExclusiveStartKey = none) :
    (match cursor with
      | some key => { input with ExclusiveStartKey := some key }
      | none => input) = { input with ExclusiveStartKey := cursor } := by
  cases cursor with
  | none =>
    have := h rfl
    cases input
    simp_all
  | some key => rfl

theorem pagesFrom_mono (client : Client) (input : QueryInput) (n : Nat) (c : Option Item)
    (r : Except GoError (List QueryOutput)) (h : pagesFrom client input n c = .done r) (k : Nat) :
    pagesFrom client input (n + k) c = .done r := by
  induction n generalizing c r with
  | zero => simp [pagesFrom] at h
  | succ n ih =>
    rw [Nat.succ_add]
    simp only [pagesFrom] at h ⊢
    cases hq : client.Query { input with ExclusiveStartKey := c } with
    | error err => simpa [hq] using h
    | ok page =>
      rw [hq] at h
      simp only at h ⊢
      cases hk : page.LastEvaluatedKey with
      | none => simpa [hk] using h
      | some key =>
        rw [hk] at h
        simp only at h ⊢
        cases hp : pagesFrom client input n (some key) with
        | running => simp [hp] at h
        | done r2 =>
          rw [ih (some key) r2 hp]
          rw [hp] at h
          exact h

theorem toList_append {α : Type} (s : Slice α) (a : α) :
    (s.append a).toList = s.toList ++ [a] :=
  rfl

theorem convertTasks_ok (dbTasks : List DynamoDBTask) (tasks : List Task) (acc : Slice Task)
    (h : toTasks dbTasks = .ok tasks) :
    ∃ s, convertTasks dbTasks acc = .ok s ∧ s.toList = acc.toList ++ tasks ∧
      (tasks = [] → s = acc) := by
  induction dbTasks generalizing tasks acc with
  | nil =>
    simp only [toTasks, Except.ok.injEq] at h
    subst h
    exact ⟨acc, rfl, by simp, fun _ => rfl⟩
  | cons d rest ih =>
    simp only [toTasks] at h
    simp only [convertTasks]
    rcases hd : d.ToTask with ⟨t, _ | err⟩
    · rw [hd] at h
      simp only at h ⊢
      cases hr : toTasks rest with
      | error e => simp [hr] at h
      | ok more =>
        rw [hr] at h
        simp only [Except.ok.injEq] at h
        subst h
        obtain ⟨s, hs, hl, _⟩ := ih more (acc.append t) hr
        exact ⟨s, hs, by rw [hl, toList_append]; simp, by simp⟩
    · rw [hd] at h
      simp at h

theorem convertTasks_error (dbTasks : List DynamoDBTask) (err : GoError) (acc : Slice Task)
    (h : toTasks dbTasks = .error err) : convertTasks dbTasks acc = .error err := by
  induction dbTasks generalizing acc with
  | nil => simp [toTasks] at h
  | cons d rest ih =>
    simp only [toTasks] at h
    simp only [convertTasks]
    rcases hd : d.ToTask with ⟨t, _ | e⟩
    · rw [hd] at h
      simp only at h ⊢
      cases hr : toTasks rest with
      | error e2 =>
        rw [hr] at h
        simp only [Except.error.injEq] at h
        subst h
        exact ih (acc.append t) hr
      | ok more => simp [hr] at h
    · rw [hd] at h
      simp only [Except.error.injEq] at h ⊢
      exact h

theorem listLoop_ok (env : Env) (ts : TaskStore) (n : Nat) (input : QueryInput)
    (acc : Slice Task) (cursor : Option Item) (calls : List Call)
    (hc : cursor = none → input.ExclusiveStartKey = none)
    (pages : List QueryOutput) (tasks : List Task)
    (hp : pagesFrom ts.client input n cursor = .done (.ok pages))
    (hd : decodePages env pages = .ok tasks) (k : Nat) :
    ∃ s, listLoop env ts (n + k) input acc cursor calls
        = (.done (s, none), calls ++ queriesFor input cursor pages) ∧
      s.toList = acc.toList ++ tasks ∧ (tasks = [] → s = acc) := by
  induction n generalizing input acc cursor calls pages tasks with
  | zero => simp [pagesFrom] at hp
  | succ n ih =>
    rw [Nat.succ_add]
    simp only [listLoop, resume_eq input cursor hc]
    simp only [pagesFrom] at hp
    cases hq : ts.client.Query { input with ExclusiveStartKey := cursor } with
    | error err => simp [hq] at hp
    | ok page =>
      rw [hq] at hp
      simp only at hp ⊢
      cases hk : page.LastEvaluatedKey with
      | none =>
        rw [hk] at hp
        simp only [Run.done.injEq, Except.ok.injEq] at hp
        subst hp
        simp only [decodePages, decodePage] at hd
        cases hu : UnmarshalListOfMaps env page.Items with
        | error e => simp [hu] at hd
        | ok dbTasks =>
          rw [hu] at hd
          simp only at hd ⊢
          cases ht : toTasks dbTasks with
          | error e => simp [ht] at hd
          | ok found =>
            rw [ht] at hd
            simp only [List.append_nil, Except.ok.injEq] at hd
            subst hd
            obtain ⟨s, hs, hl, he⟩ := convertTasks_ok dbTasks found acc ht
            rw [hs]
            exact ⟨s, by simp [queriesFor], hl, he⟩
      | some key =>
        rw [hk] at hp
        simp only at hp
        cases hrest : pagesFrom ts.client input n (some key) with
        | running => simp [hrest] at hp
        | done r =>
          rw [hrest] at hp
          cases r with
          | error e => simp at hp
          | ok more =>
            simp only [Run.done.injEq, Except.ok.injEq] at hp
            subst hp
            simp only [decodePages, decodePage] at hd
            cases hu : UnmarshalListOfMaps env page.Items with
            | error e => simp [hu] at hd
            | ok dbTasks =>
              rw [hu] at hd
              simp only at hd ⊢
              cases ht : toTasks dbTasks with
              | error e => simp [ht] at hd
              | ok found =>
                rw [ht] at hd
                simp only at hd
                cases hm : decodePages env more with
                | error e => simp [hm] at hd
                | ok later =>
                  rw [hm] at hd
                  simp only [Except.ok.injEq] at hd
                  subst hd
                  obtain ⟨s, hs, hl, he⟩ := convertTasks_ok dbTasks found acc ht
                  rw [hs]
                  simp only
                  have hrest2 : pagesFrom ts.client { input with ExclusiveStartKey := cursor } n
                      (some key) = .done (.ok more) := by
                    rw [pagesFrom_update]
                    exact hrest
                  obtain ⟨s2, hs2, hl2, he2⟩ :=
                    ih { input with ExclusiveStartKey := cursor } s (some key)
                      (calls ++ [.Query { input with ExclusiveStartKey := cursor }])
                      (by simp) more later hrest2 hm
                  refine ⟨s2, ?_, ?_, ?_⟩
                  · rw [hs2, queriesFor_update]
                    simp [queriesFor, hk]
                  · rw [hl2, hl, List.append_assoc]
                  · intro hnil
                    have h1 : found = [] := (List.append_eq_nil.1 hnil).1
                    have h2 : later = [] := (List.append_eq_nil.1 hnil).2
                    rw [he2 h2, he h1]

theorem listLoop_error_null (env : Env) (ts : TaskStore) (fuel : Nat) (input : QueryInput)
    (acc : Slice Task) (cursor : Option Item) (calls : List Call) (s : Slice Task)
    (err : GoError) (made : List Call)
    (h : listLoop env ts fuel input acc cursor calls = (.done (s, some err), made)) :
    s = .null := by
  induction fuel generalizing input acc cursor calls with
  | zero => simp [listLoop] at h
  | succ n ih =>
    simp only [listLoop] at h
    split at h
    · simp only [Prod.mk.injEq, Run.done.injEq] at h
      exact h.1.1.symm
    · split at h
      · simp only [Prod.mk.injEq, Run.done.injEq] at h
        exact h.1.1.symm
      · split at h
        · simp only [Prod.mk.injEq, Run.done.injEq] at h
          exact h.1.1.symm
        · split at h
          · simp at h
          · exact ih _ _ _ _ h

theorem listLoop_fail (env : Env) (ts : TaskStore) (n : Nat) (input : QueryInput)
    (acc : Slice Task) (cursor : Option Item) (calls : List Call)
    (hc : cursor = none → input.ExclusiveStartKey = none)
    (r : Except GoError (List QueryOutput))
    (hp : pagesFrom ts.client input n cursor = .done r)
    (hf : ∀ pages, r = .ok pages → ∃ e, decodePages env pages = .error e) (k : Nat) :
    ∃ err made, listLoop env ts (n + k) input acc cursor calls
      = (.done (.null, some err), made) := by
  induction n generalizing input acc cursor calls r with
  | zero => simp [pagesFrom] at hp
  | succ n ih =>
    rw [Nat.succ_add]
    simp only [listLoop, resume_eq input cursor hc]
    simp only [pagesFrom] at hp
    cases hq : ts.client.Query { input with ExclusiveStartKey := cursor } with
    | error err => exact ⟨_, _, rfl⟩
    | ok page =>
      rw [hq] at hp
      simp only at hp ⊢
      cases hu : UnmarshalListOfMaps env page.Items with
      | error e => exact ⟨_, _, rfl⟩
      | ok dbTasks =>
        simp only
        cases ht : toTasks dbTasks with
        | error e =>
          rw [convertTasks_error dbTasks e acc ht]
          exact ⟨_, _, rfl⟩
        | ok found =>
          obtain ⟨s, hs, _, _⟩ := convertTasks_ok dbTasks found acc ht
          rw [hs]
          simp only
          have hpage : decodePage env page = .ok found := by
            simp [decodePage, hu, ht]
          cases hk : page.LastEvaluatedKey with
          | none =>
            rw [hk] at hp
            simp only [Run.done.injEq] at hp
            obtain ⟨e, he⟩ := hf [page] hp.symm
            simp [decodePages, hpage] at he
          | some key =>
            rw [hk] at hp
            simp only at hp ⊢
            cases hrest : pagesFrom ts.client input n (some key) with
            | running => simp [hrest] at hp
            | done r2 =>
              rw [hrest] at hp
              have hrest2 : pagesFrom ts.client { input with ExclusiveStartKey := cursor } n
                  (some key) = .done r2 := by
                rw [pagesFrom_update]
                exact hrest
              apply ih { input with ExclusiveStartKey := cursor } s (some key) _ (by simp) r2
                hrest2
              intro pages hr2
              subst hr2
              simp only [Run.done.injEq] at hp
              obtain ⟨e, he⟩ := hf (page :: pages) hp.symm
              simp only [decodePages, hpage] at he
              cases hm : decodePages env pages with
              | error e2 => exact ⟨e2, rfl⟩
              | ok later => simp [hm] at he

/-- C5: when the backend answers the query of `listByStatus` with finitely many pages (`n`
queries reach the page without cursor, each query resuming from the cursor of the page before)
and the loop may run that long, `listByStatus` makes exactly those queries and returns a nil
error with the in-order concatenation of the decoded items of all pages; when instead a page
query fails or an item of a page does not decode, it returns an error and the nil slice; and
whenever it returns an error at all, the slice it returns is nil. -/
theorem listByStatus_pages (env : Env) (ts : TaskStore) (owner : String) (status : TaskStatus)
    (n fuel : Nat) (hn : n ≤ fuel) (r : Except GoError (List QueryOutput))
    (hp : pagesFrom ts.client (queryInput ts owner status) n none = .done r) :
    (∀ pages tasks, r = .ok pages → decodePages env pages = .ok tasks →
      ∃ s, ts.listByStatus env fuel owner status
          = (.done (s, none), queriesFor (queryInput ts owner status) none pages) ∧
        s.toList = tasks) ∧
    ((∀ pages, r = .ok pages → ∃ e, decodePages env pages = .error e) →
      ∃ err made, ts.listByStatus env fuel owner status = (.done (.null, some err), made)) ∧
    (∀ s err made, ts.listByStatus env fuel owner status = (.done (s, some err), made) →
      s = .null) := by
  obtain ⟨k, rfl⟩ := Nat.exists_eq_add_of_le hn
  refine ⟨?_, ?_, ?_⟩
  · intro pages tasks hr hd
    subst hr
    obtain ⟨s, hs, hl, _⟩ :=
      listLoop_ok env ts n (queryInput ts owner status) .null none [] (fun _ => rfl) pages tasks
        hp hd k
    refine ⟨s, ?_, ?_⟩
    · simpa [TaskStore.listByStatus] using hs
    · simpa [Slice.toList] using hl
  · intro hf
    exact listLoop_fail env ts n (queryInput ts owner status) .null none [] (fun _ => rfl) r hp
      hf k
  · intro s err made h
    exact listLoop_error_null env ts (n + k) _ _ _ _ s err made h

/-- Witness of C5: the paged backend, whose two pages hold one task each. -/
theorem listByStatus_pages_witness :
    pagesFrom pagedClient (queryInput ⟨pagedClient, "tasks"⟩ "a@x.com" TaskStatusOpen) 2 none
      = .done (.ok [firstPage, lastPage]) ∧
    decodePages sampleEnv [firstPage, lastPage] = .ok [sampleTask, secondTask] ∧
    ∃ s, TaskStore.listByStatus sampleEnv ⟨pagedClient, "tasks"⟩ 5 "a@x.com" TaskStatusOpen
        = (.done (s, none),
          queriesFor (queryInput ⟨pagedClient, "tasks"⟩ "a@x.com" TaskStatusOpen) none
            [firstPage, lastPage]) ∧
      s.toList = [sampleTask, secondTask] :=
  ⟨by decide, by decide,
    (listByStatus_pages sampleEnv ⟨pagedClient, "tasks"⟩ "a@x.com" TaskStatusOpen 2 5
      (by decide) (.ok [firstPage, lastPage]) (by decide)).1 [firstPage, lastPage]
      [sampleTask, secondTask] rfl (by decide)⟩

/-! ## The handlers -/

theorem listLoop_calls (env : Env) (ts : TaskStore) (fuel : Nat) (input : QueryInput)
    (acc : Slice Task) (cursor : Option Item) (calls : List Call) :
    ∃ more, (listLoop env ts fuel input acc cursor calls).2 = calls ++ more ∧
      (0 < fuel → more ≠ []) ∧
      ∀ c ∈ more, ∃ i : QueryInput, c = .Query i ∧ i.TableName = input.TableName ∧
        i.IndexName = input.IndexName ∧
        i.ExpressionAttributeValues = input.ExpressionAttributeValues := by
  induction fuel generalizing input acc cursor calls with
  | zero => exact ⟨[], by simp [listLoop], by simp, by simp⟩
  | succ n ih =>
    have hres : ∃ inp : QueryInput, (match cursor with
        | some key => { input with ExclusiveStartKey := some key }
        | none => input) = inp ∧ inp.TableName = input.TableName ∧
        inp.IndexName = input.IndexName ∧
        inp.ExpressionAttributeValues = input.ExpressionAttributeValues :=
      ⟨_, rfl, by cases cursor <;> rfl, by cases cursor <;> rfl, by cases cursor <;> rfl⟩
    obtain ⟨inp, hinp, hT, hI, hE⟩ := hres
    have hin : ∀ c ∈ [Call.Query inp], ∃ i : QueryInput, c = .Query i ∧
        i.TableName = input.TableName ∧ i.IndexName = input.IndexName ∧
        i.ExpressionAttributeValues = input.ExpressionAttributeValues := by
      intro c hc
      simp only [List.mem_singleton] at hc
      exact ⟨inp, hc, hT, hI, hE⟩
    simp only [listLoop, hinp]
    split
    · exact ⟨[Call.Query inp], rfl, by simp, hin⟩
    · split
      · exact ⟨[Call.Query inp], rfl, by simp, hin⟩
      · split
        · exact ⟨[Call.Query inp], rfl, by simp, hin⟩
        · split
          · exact ⟨[Call.Query inp], rfl, by simp, hin⟩
          · rename_i key _
            obtain ⟨more, h1, _, h3⟩ := ih inp _ (some key) (calls ++ [Call.Query inp])
            refine ⟨Call.Query inp :: more, ?_, by simp, ?_⟩
            · rw [h1]
              simp
            · intro c hc
              rcases List.mem_cons.1 hc with hc | hc
              · exact hin c (by simp [hc])
              · obtain ⟨i, hi, h4, h5, h6⟩ := h3 c hc
                exact ⟨i, hi, h4.trans hT, h5.trans hI, h6.trans hE⟩

theorem listByStatus_calls (env : Env) (ts : TaskStore) (fuel : Nat) (owner : String)
    (status : TaskStatus) :
    (0 < fuel → (ts.listByStatus env fuel owner status).2 ≠ []) ∧
    ∀ c ∈ (ts.listByStatus env fuel owner status).2, ∃ i : QueryInput, c = .Query i ∧
      i.TableName = ts.tableName ∧ i.IndexName = "GS1" ∧
      i.ExpressionAttributeValues = [(":gspk", .S ("#" ++ owner ++ "#" ++ status))] := by
  obtain ⟨more, h1, h2, h3⟩ :=
    listLoop_calls env ts fuel (queryInput ts owner status) .null none []
  simp only [List.nil_append] at h1
  unfold TaskStore.listByStatus
  rw [h1]
  exact ⟨h2, h3⟩

/-- C10: a list request whose `owner` parameter is absent or empty is answered 400 with the
message "Owner is required", whatever the store is (a nil store included), and no call reaches
the backend; otherwise the calls made are those of `ListClosed(owner)` when `status` is
"CLOSED" and those of `ListOpen(owner)` for every other value of `status`; `ListClosed` queries
the partition of the owner's CLOSED tasks and `ListOpen` that of the OPEN tasks, at least
once. -/
theorem listTasks_dispatch (env : Env) (api : API) (fuel : Nat) (request : Request) :
    ((request.QueryStringParameters.lookup "owner" = none ∨
        request.QueryStringParameters.lookup "owner" = some "") →
      api.listTasks env fuel request
        = (.returned ⟨400, "\x7b\"message\": \"Owner is required\"\x7d",
            [("Content-Type", "application/json")]⟩ none, [])) ∧
    (∀ store, api.store = some store → request.query "owner" ≠ "" →
      (request.query "status" = "CLOSED" →
        (api.listTasks env fuel request).2
          = (store.ListClosed env fuel (request.query "owner")).2) ∧
      (request.query "status" ≠ "CLOSED" →
        (api.listTasks env fuel request).2
          = (store.ListOpen env fuel (request.query "owner")).2)) ∧
    (∀ (store : TaskStore) (owner : String),
      (0 < fuel → (store.ListClosed env fuel owner).2 ≠ [] ∧
        (store.ListOpen env fuel owner).2 ≠ []) ∧
      (∀ c ∈ (store.ListClosed env fuel owner).2, ∃ i : QueryInput, c = .Query i ∧
        i.IndexName = "GS1" ∧
        i.ExpressionAttributeValues = [(":gspk", .S ("#" ++ owner ++ "#CLOSED"))]) ∧
      (∀ c ∈ (store.ListOpen env fuel owner).2, ∃ i : QueryInput, c = .Query i ∧
        i.IndexName = "GS1" ∧
        i.ExpressionAttributeValues = [(":gspk", .S ("#" ++ owner ++ "#OPEN"))])) := by
  refine ⟨?_, ?_, ?_⟩
  · intro h
    have ho : request.query "owner" = "" := by
      rcases h with h | h <;> simp [Request.query, h]
    simp only [API.listTasks, ho, if_true]
    rfl
  · intro store hs hne
    constructor
    · intro hst
      simp only [API.listTasks, hne, if_false, hst, TaskStatusClosed, if_true, API.withStore, hs]
      split <;> (try split) <;> simp_all
    · intro hst
      simp only [API.listTasks, hne, if_false, hst, TaskStatusClosed, API.withStore, hs]
      split <;> (try split) <;> simp_all
  · intro store owner
    have hc := listByStatus_calls env store fuel owner TaskStatusClosed
    have ho := listByStatus_calls env store fuel owner TaskStatusOpen
    refine ⟨fun hf => ⟨hc.1 hf, ho.1 hf⟩, ?_, ?_⟩
    · intro c hmem
      obtain ⟨i, h1, _, h3, h4⟩ := hc.2 c hmem
      refine ⟨i, h1, h3, ?_⟩
      rw [h4, TaskStatusClosed, String.append_assoc ("#" ++ owner)]
      rfl
    · intro c hmem
      obtain ⟨i, h1, _, h3, h4⟩ := ho.2 c hmem
      refine ⟨i, h1, h3, ?_⟩
      rw [h4, TaskStatusOpen, String.append_assoc ("#" ++ owner)]
      rfl

/-- Witness of C10: a list request without owner, sent to an API whose store is nil. -/
theorem listTasks_dispatch_witness :
    (requestWithoutOwner.QueryStringParameters.lookup "owner" = none ∨
      requestWithoutOwner.QueryStringParameters.lookup "owner" = some "") ∧
    API.listTasks sampleEnv ⟨none⟩ 3 requestWithoutOwner
      = (.returned ⟨400, "\x7b\"message\": \"Owner is required\"\x7d",
          [("Content-Type", "application/json")]⟩ none, []) :=
  ⟨Or.inl (by decide),
    (listTasks_dispatch sampleEnv ⟨none⟩ 3 requestWithoutOwner).1 (Or.inl (by decide))⟩

/-- C6, evaluated on the code: for an owner without tasks (the backend answers the query for
either status with one empty page and no cursor), `ListOpen` and `ListClosed` return a nil error
and the nil slice, and the response to `GET /api/tasks/?owner=...` is 200 with the body `null`,
not the JSON array `[]`. -/
theorem listTasks_no_tasks_body (env : Env) (store : TaskStore) (fuel : Nat) (request : Request)
    (hpath : request.Path = "/api/tasks/") (hmethod : request.HTTPMethod = "GET")
    (howner : request.query "owner" ≠ "")
    (hempty : ∀ status, store.client.Query (queryInput store (request.query "owner") status)
      = .ok ⟨[], none⟩) :
    (store.ListOpen env (fuel + 1) (request.query "owner")).1 = .done (.null, none) ∧
    (store.ListClosed env (fuel + 1) (request.query "owner")).1 = .done (.null, none) ∧
    (API.HandleRequest env ⟨some store⟩ (fuel + 1) request).1
      = .returned ⟨200, "null", [("Content-Type", "application/json")]⟩ none ∧
    (API.HandleRequest env ⟨some store⟩ (fuel + 1) request).1
      ≠ .returned ⟨200, "[]", [("Content-Type", "application/json")]⟩ none := by
  have hlist : ∀ status, store.listByStatus env (fuel + 1) (request.query "owner") status
      = (.done (.null, none), [.Query (queryInput store (request.query "owner") status)]) := by
    intro status
    simp [TaskStore.listByStatus, listLoop, hempty status, UnmarshalListOfMaps, convertTasks]
  have hreq : API.HandleRequest env ⟨some store⟩ (fuel + 1) request
      = API.listTasks env ⟨some store⟩ (fuel + 1) request := by
    have hp : ¬ (request.Path = "/api/health-check/") := by
      rw [hpath]
      decide
    have hparts : (splitSlash request.Path.data).map String.mk = ["", "api", "tasks", ""] := by
      rw [hpath]
      decide
    have hpre : "/api/tasks/".data.isPrefixOf request.Path.data = true := by
      rw [hpath]
      decide
    simp [API.HandleRequest, hp, hpre, hparts, API.handleTasks, hmethod]
  have hbody : (API.listTasks env ⟨some store⟩ (fuel + 1) request).1
      = .returned ⟨200, "null", [("Content-Type", "application/json")]⟩ none := by
    by_cases hst : request.query "status" = TaskStatusClosed
    · simp [API.listTasks, howner, hst, API.withStore, TaskStore.ListClosed, hlist,
        jsonMarshalTasks, respond, jsonHeaders]
    · simp [API.listTasks, howner, hst, API.withStore, TaskStore.ListOpen, hlist,
        jsonMarshalTasks, respond, jsonHeaders]
  refine ⟨?_, ?_, ?_, ?_⟩
  · simp [TaskStore.ListOpen, hlist]
  · simp [TaskStore.ListClosed, hlist]
  · rw [hreq, hbody]
  · rw [hreq, hbody]
    decide

/-- Witness of C6: the backend without items, asked for the tasks of `a@x.com`. -/
theorem listTasks_no_tasks_body_witness :
    (API.HandleRequest sampleEnv ⟨some ⟨emptyClient, "tasks"⟩⟩ 1 listRequest).1
      = .returned ⟨200, "null", [("Content-Type", "application/json")]⟩ none :=
  (listTasks_no_tasks_body sampleEnv ⟨emptyClient, "tasks"⟩ 0 listRequest rfl rfl (by decide)
    (fun _ => rfl)).2.2.1

/-- C7, evaluated on the code: in the get-by-ID operation with a well-formed id and an owner,
every error of `Store.GetByID` is answered 404: a failing backend call, a record that does not
unmarshal and a record whose id is no UUID, like an absent record. -/
theorem getTask_store_failure_status (env : Env) (store : TaskStore) (taskIDStr : String)
    (taskID : UUID) (request : Request) (hid : Parse taskIDStr = .ok taskID)
    (howner : request.query "owner" ≠ "") :
    (∀ e, store.client.GetItem store.tableName (primaryKey taskID (request.query "owner"))
        = .error e →
      (API.getTask env ⟨some store⟩ taskIDStr request).1
        = .returned
            ⟨404, messageBody ("Task not found: failed to get task from DynamoDB: " ++ e),
            [("Content-Type", "application/json")]⟩ none) ∧
    (∀ item e, store.client.GetItem store.tableName (primaryKey taskID (request.query "owner"))
        = .ok (some item) → env.UnmarshalMap item = .error e →
      (API.getTask env ⟨some store⟩ taskIDStr request).1
        = .returned ⟨404, messageBody ("Task not found: failed to unmarshal task: " ++ e),
            [("Content-Type", "application/json")]⟩ none) ∧
    (∀ item dbTask t e,
      store.client.GetItem store.tableName (primaryKey taskID (request.query "owner"))
        = .ok (some item) → env.UnmarshalMap item = .ok dbTask → dbTask.ToTask = (t, some e) →
      (API.getTask env ⟨some store⟩ taskIDStr request).1
        = .returned ⟨404, messageBody ("Task not found: failed to convert to task: " ++ e),
            [("Content-Type", "application/json")]⟩ none) ∧
    (store.client.GetItem store.tableName (primaryKey taskID (request.query "owner"))
        = .ok none →
      (API.getTask env ⟨some store⟩ taskIDStr request).1
        = .returned ⟨404, messageBody "Task not found: task not found",
            [("Content-Type", "application/json")]⟩ none) := by
  refine ⟨?_, ?_, ?_, ?_⟩
  · intro e h
    simp only [API.getTask, hid, howner, API.withStore, TaskStore.GetByID, h, respond,
      jsonHeaders, if_false, ← String.append_assoc]
    rfl
  · intro item e h hu
    simp only [API.getTask, hid, howner, API.withStore, TaskStore.GetByID, h, hu, respond,
      jsonHeaders, if_false, ← String.append_assoc]
    rfl
  · intro item dbTask t e h hu ht
    simp only [API.getTask, hid, howner, API.withStore, TaskStore.GetByID, h, hu, ht, respond,
      jsonHeaders, if_false, ← String.append_assoc]
    rfl
  · intro h
    simp [API.getTask, hid, howner, API.withStore, TaskStore.GetByID, h, respond, jsonHeaders]

/-- Witness of C7: the backend whose `GetItem` fails with `RequestError`. -/
theorem getTask_store_failure_status_witness :
    (API.getTask sampleEnv ⟨some ⟨brokenClient, "tasks"⟩⟩
      "123e4567-e89b-12d3-a456-426614174000" getRequest).1
      = .returned ⟨404,
          "\x7b\"message\": \"Task not found: failed to get task from DynamoDB: RequestError\"\x7d",
          [("Content-Type", "application/json")]⟩ none :=
  (getTask_store_failure_status sampleEnv ⟨brokenClient, "tasks"⟩
    "123e4567-e89b-12d3-a456-426614174000" sampleTask.ID getRequest (by decide) (by decide)).1
    "RequestError" rfl

/-! ## The handlers: create and get-by-ID -/

/-- C11: a create request whose body does not decode, or decodes to an empty title, or to an
empty owner, is answered 400, whatever the store is (a nil store included), and no call reaches
the backend, so nothing is persisted; an empty title is reported as "Title is required" also
when the owner is empty too. -/
theorem createTask_invalid (env : Env) (api : API) (request : Request) :
    (∀ err, env.jsonUnmarshalCreateTaskRequest request.Body = .error err →
      api.createTask env request
        = (.returned ⟨400, messageBody ("Invalid request body: " ++ err),
            [("Content-Type", "application/json")]⟩ none, [])) ∧
    (∀ decoded, env.jsonUnmarshalCreateTaskRequest request.Body = .ok decoded →
      decoded.Title = "" →
      api.createTask env request
        = (.returned ⟨400, "\x7b\"message\": \"Title is required\"\x7d",
            [("Content-Type", "application/json")]⟩ none, [])) ∧
    (∀ decoded, env.jsonUnmarshalCreateTaskRequest request.Body = .ok decoded →
      decoded.Title ≠ "" → decoded.Owner = "" →
      api.createTask env request
        = (.returned ⟨400, "\x7b\"message\": \"Owner is required\"\x7d",
            [("Content-Type", "application/json")]⟩ none, [])) := by
  refine ⟨?_, ?_, ?_⟩
  · intro err h
    simp only [API.createTask, h]
    rfl
  · intro decoded h ht
    simp only [API.createTask, h, ht, if_true]
    rfl
  · intro decoded h ht ho
    simp only [API.createTask, h, ht, ho, if_true, if_false]
    rfl

/-- Witness of C11: a body that is no JSON and a body without title, sent to an API whose store
is nil. -/
theorem createTask_invalid_witness :
    sampleEnv.jsonUnmarshalCreateTaskRequest createRequestMalformed.Body
      = .error "invalid character" ∧
    API.createTask sampleEnv ⟨none⟩ createRequestMalformed
      = (.returned ⟨400, messageBody ("Invalid request body: " ++ "invalid character"),
          [("Content-Type", "application/json")]⟩ none, []) ∧
    API.createTask sampleEnv ⟨none⟩ createRequestWithoutTitle
      = (.returned ⟨400, "\x7b\"message\": \"Title is required\"\x7d",
          [("Content-Type", "application/json")]⟩ none, []) :=
  ⟨by decide,
    (createTask_invalid sampleEnv ⟨none⟩ createRequestMalformed).1 "invalid character"
      (by decide),
    (createTask_invalid sampleEnv ⟨none⟩ createRequestWithoutTitle).2.1 ⟨"", "a@x.com"⟩
      (by decide) rfl⟩

/-- C12: for a create request whose body decodes to a non-empty title and a non-empty owner,
the handler makes exactly the backend calls of `Store.Add(NewTask(id, title, owner))` for the
generated id, a Task with that id, the title and owner of the request and status OPEN (when the
record marshals, one `PutItem` of the record of that Task); if `Add` returns a nil error the
response is 201 with the serialization of that Task as its body, and if `Add` returns an error
the response is 500. `NewTask` returns status OPEN for every id, title and owner. -/
theorem createTask_valid (env : Env) (store : TaskStore) (request : Request)
    (decoded : CreateTaskRequest)
    (hd : env.jsonUnmarshalCreateTaskRequest request.Body = .ok decoded)
    (ht : decoded.Title ≠ "") (ho : decoded.Owner ≠ "") :
    NewTask env.newUUID decoded.Title decoded.Owner
      = ⟨env.newUUID, decoded.Title, "OPEN", decoded.Owner⟩ ∧
    (API.createTask env ⟨some store⟩ request).2
      = (store.Add env (NewTask env.newUUID decoded.Title decoded.Owner)).2 ∧
    (∀ av, env.MarshalMap (ToDynamoDBTask env.now
        (NewTask env.newUUID decoded.Title decoded.Owner)) = .ok av →
      (API.createTask env ⟨some store⟩ request).2 = [.PutItem store.tableName av]) ∧
    (∀ body, (store.Add env (NewTask env.newUUID decoded.Title decoded.Owner)).1 = none →
      env.jsonMarshalTask (NewTask env.newUUID decoded.Title decoded.Owner) = .ok body →
      (API.createTask env ⟨some store⟩ request).1
        = .returned ⟨201, body, [("Content-Type", "application/json")]⟩ none) ∧
    (∀ err, (store.Add env (NewTask env.newUUID decoded.Title decoded.Owner)).1 = some err →
      (API.createTask env ⟨some store⟩ request).1
        = .returned ⟨500, messageBody ("Failed to create task: " ++ err),
            [("Content-Type", "application/json")]⟩ none) ∧
    (∀ id title owner, (NewTask id title owner).Status = TaskStatusOpen) := by
  have hcalls : (API.createTask env ⟨some store⟩ request).2
      = (store.Add env (NewTask env.newUUID decoded.Title decoded.Owner)).2 := by
    simp only [API.createTask, hd, ht, ho, if_false, API.add]
    split <;> (try split) <;> simp_all
  refine ⟨rfl, hcalls, ?_, ?_, ?_, fun _ _ _ => rfl⟩
  · intro av hav
    rw [hcalls]
    simp only [TaskStore.Add, hav]
    split <;> rfl
  · intro body hadd hbody
    simp only [API.createTask, hd, ht, ho, if_false, API.add, hadd, hbody]
    rfl
  · intro err hadd
    simp only [API.createTask, hd, ht, ho, if_false, API.add, hadd]
    rfl

/-- Witness of C12: `POST /api/tasks/` with title "Buy milk" and owner "a@x.com" on a backend
that accepts the write. -/
theorem createTask_valid_witness :
    sampleEnv.jsonUnmarshalCreateTaskRequest createRequest.Body
      = .ok ⟨"Buy milk", "a@x.com"⟩ ∧
    (API.createTask sampleEnv ⟨some ⟨emptyClient, "tasks"⟩⟩ createRequest).2
      = [.PutItem "tasks" (itemOf sampleTask)] ∧
    (API.createTask sampleEnv ⟨some ⟨emptyClient, "tasks"⟩⟩ createRequest).1
      = .returned ⟨201,
          ("\x7b\"id\":\"123e4567-e89b-12d3-a456-426614174000\",\"title\":\"Buy milk\","
            ++ "\"status\":\"OPEN\",\"owner\":\"a@x.com\"\x7d"),
          [("Content-Type", "application/json")]⟩ none :=
  ⟨by decide,
    (createTask_valid sampleEnv ⟨emptyClient, "tasks"⟩ createRequest ⟨"Buy milk", "a@x.com"⟩
      (by decide) (by decide) (by decide)).2.2.1 (itemOf sampleTask) (by decide),
    (createTask_valid sampleEnv ⟨emptyClient, "tasks"⟩ createRequest ⟨"Buy milk", "a@x.com"⟩
      (by decide) (by decide) (by decide)).2.2.2.1 _ (by decide) (by decide)⟩

/-- C13: a get-by-ID request whose id does not parse as a UUID is answered 400 with the parse
error, whatever the owner parameter is (so a malformed id with a missing owner reports the
invalid id), and one whose id parses but whose `owner` parameter is absent or empty is answered
400 "Owner is required"; in both cases the store may be anything (a nil store included) and no
call reaches the backend. -/
theorem getTask_invalid (env : Env) (api : API) (taskIDStr : String) (request : Request) :
    (∀ err, Parse taskIDStr = .error err →
      api.getTask env taskIDStr request
        = (.returned ⟨400, messageBody ("Invalid task ID: " ++ err),
            [("Content-Type", "application/json")]⟩ none, [])) ∧
    (∀ id, Parse taskIDStr = .ok id →
      (request.QueryStringParameters.lookup "owner" = none ∨
        request.QueryStringParameters.lookup "owner" = some "") →
      api.getTask env taskIDStr request
        = (.returned ⟨400, "\x7b\"message\": \"Owner is required\"\x7d",
            [("Content-Type", "application/json")]⟩ none, [])) := by
  refine ⟨?_, ?_⟩
  · intro err h
    simp only [API.getTask, h]
    rfl
  · intro id h hq
    have ho : request.query "owner" = "" := by
      rcases hq with hq | hq <;> simp [Request.query, hq]
    simp only [API.getTask, h, ho, if_true]
    rfl

/-- Witness of C13: the id `not-a-uuid` without owner, and a well-formed id without owner, sent
to an API whose store is nil. -/
theorem getTask_invalid_witness :
    Parse "not-a-uuid" = .error "invalid UUID length: 10" ∧
    API.getTask sampleEnv ⟨none⟩ "not-a-uuid" getRequestBadID
      = (.returned ⟨400, messageBody ("Invalid task ID: " ++ "invalid UUID length: 10"),
          [("Content-Type", "application/json")]⟩ none, []) ∧
    messageBody ("Invalid task ID: " ++ "invalid UUID length: 10")
      = "\x7b\"message\": \"Invalid task ID: invalid UUID length: 10\"\x7d" ∧
    API.getTask sampleEnv ⟨none⟩ "123e4567-e89b-12d3-a456-426614174000" getRequestBadID
      = (.returned ⟨400, "\x7b\"message\": \"Owner is required\"\x7d",
          [("Content-Type", "application/json")]⟩ none, []) :=
  ⟨by decide,
    (getTask_invalid sampleEnv ⟨none⟩ "not-a-uuid" getRequestBadID).1 "invalid UUID length: 10"
      (by decide),
    by decide,
    (getTask_invalid sampleEnv ⟨none⟩ "123e4567-e89b-12d3-a456-426614174000"
      getRequestBadID).2 sampleTask.ID (by decide) (Or.inl (by decide))⟩

/-! ## The router -/

theorem splitSlash_head (l : List Char) :
    ∃ tail, splitSlash l = l.takeWhile (fun c => c ≠ '/') :: tail := by
  induction l with
  | nil => exact ⟨[], rfl⟩
  | cons c cs ih =>
    obtain ⟨tail, ht⟩ := ih
    by_cases hc : c = '/'
    · subst hc
      exact ⟨splitSlash cs, by simp [splitSlash]⟩
    · exact ⟨tail, by simp [splitSlash, hc, ht]⟩

theorem underTasks_iff (path : String) :
    underTasks path ↔ "/api/tasks/".data.isPrefixOf path.data = true := by
  rw [List.isPrefixOf_iff_prefix]
  constructor
  · rintro ⟨rest, h⟩
    exact ⟨rest, h.symm⟩
  · rintro ⟨rest, h⟩
    exact ⟨rest, h.symm⟩

theorem parts_of_underTasks (path : String) (h : underTasks path) :
    ∃ tail, (splitSlash path.data).map String.mk
      = "" :: "api" :: "tasks" :: idSegment path :: tail := by
  obtain ⟨rest, hr⟩ := h
  obtain ⟨tail, ht⟩ := splitSlash_head rest
  refine ⟨tail.map String.mk, ?_⟩
  have hlen : "/api/tasks/".length = 11 := by decide
  have hseg : idSegment path = String.mk (rest.takeWhile (fun c => c ≠ '/')) := by
    simp [idSegment, hr, hlen]
  rw [hseg, hr]
  simp [splitSlash, ht]

theorem handleRequest_underTasks (env : Env) (api : API) (fuel : Nat) (request : Request)
    (h : underTasks request.Path) :
    api.HandleRequest env fuel request
      = if idSegment request.Path ≠ "" then
          api.handleTaskByID env request.HTTPMethod (idSegment request.Path) request
        else api.handleTasks env fuel request.HTTPMethod request := by
  obtain ⟨tail, ht⟩ := parts_of_underTasks request.Path h
  have hpre := (underTasks_iff request.Path).1 h
  have hne : request.Path ≠ "/api/health-check/" := by
    intro e
    rw [e] at hpre
    revert hpre
    decide
  simp [API.HandleRequest, hne, hpre, ht]

/-- C14: for a request whose path lies under `/api/tasks/`: with a non-empty ID segment,
`HandleRequest` is get-by-ID on that segment when the method is GET and otherwise answers 405
"Method Not Allowed"; with an empty or absent ID segment it is the list operation for GET, the
create operation for POST and otherwise 405; the 405 answers are given whatever the store is (a
nil store included) and make no call on the backend. -/
theorem handleRequest_tasks (env : Env) (api : API) (fuel : Nat) (request : Request)
    (h : underTasks request.Path) :
    (idSegment request.Path ≠ "" → request.HTTPMethod ≠ "GET" →
      api.HandleRequest env fuel request
        = (.returned ⟨405, "\x7b\"message\": \"Method Not Allowed\"\x7d",
            [("Content-Type", "application/json")]⟩ none, [])) ∧
    (idSegment request.Path = "" → request.HTTPMethod ≠ "GET" →
      request.HTTPMethod ≠ "POST" →
      api.HandleRequest env fuel request
        = (.returned ⟨405, "\x7b\"message\": \"Method Not Allowed\"\x7d",
            [("Content-Type", "application/json")]⟩ none, [])) ∧
    (idSegment request.Path ≠ "" → request.HTTPMethod = "GET" →
      api.HandleRequest env fuel request
        = api.getTask env (idSegment request.Path) request) ∧
    (idSegment request.Path = "" → request.HTTPMethod = "GET" →
      api.HandleRequest env fuel request = api.listTasks env fuel request) ∧
    (idSegment request.Path = "" → request.HTTPMethod = "POST" →
      api.HandleRequest env fuel request = api.createTask env request) := by
  have hr := handleRequest_underTasks env api fuel request h
  refine ⟨?_, ?_, ?_, ?_, ?_⟩
  · intro hs hm
    rw [hr]
    simp only [hs, ne_eq, not_false_eq_true, if_true, API.handleTaskByID, hm, if_false]
    rfl
  · intro hs hm hp
    rw [hr]
    simp only [hs, ne_eq, not_true_eq_false, if_false, API.handleTasks, hm, hp]
    rfl
  · intro hs hm
    rw [hr]
    simp only [hs, ne_eq, not_false_eq_true, if_true, API.handleTaskByID, hm]
  · intro hs hm
    rw [hr]
    simp only [hs, ne_eq, not_true_eq_false, if_false, API.handleTasks, hm, if_true]
  · intro hs hm
    have hg : ¬ ("POST" = "GET") := by decide
    rw [hr]
    simp only [hs, ne_eq, not_true_eq_false, if_false, API.handleTasks, hm, hg, if_true]

/-- Witness of C14: `DELETE` on the path of a task, sent to an API whose store is nil. -/
theorem handleRequest_tasks_witness :
    underTasks deleteRequest.Path ∧
    idSegment deleteRequest.Path = "123e4567-e89b-12d3-a456-426614174000" ∧
    API.HandleRequest sampleEnv ⟨none⟩ 1 deleteRequest
      = (.returned ⟨405, "\x7b\"message\": \"Method Not Allowed\"\x7d",
          [("Content-Type", "application/json")]⟩ none, []) :=
  ⟨⟨"123e4567-e89b-12d3-a456-426614174000".data, by decide⟩, by decide,
    (handleRequest_tasks sampleEnv ⟨none⟩ 1 deleteRequest
      ⟨"123e4567-e89b-12d3-a456-426614174000".data, by decide⟩).1 (by decide) (by decide)⟩

/-- C15: for every method and every path that is neither `/api/health-check/` nor under
`/api/tasks/`, `HandleRequest` returns status 404, the body `{"message": "Not Found"}` and a nil
error, whatever the store is (a nil store included), and makes no call on the backend. -/
theorem handleRequest_not_found (env : Env) (api : API) (fuel : Nat) (request : Request)
    (hh : request.Path ≠ "/api/health-check/") (ht : ¬ underTasks request.Path) :
    api.HandleRequest env fuel request
      = (.returned ⟨404, "\x7b\"message\": \"Not Found\"\x7d",
          [("Content-Type", "application/json")]⟩ none, []) := by
  have hpre : "/api/tasks/".data.isPrefixOf request.Path.data = false := by
    cases hb : "/api/tasks/".data.isPrefixOf request.Path.data with
    | false => rfl
    | true => exact absurd ((underTasks_iff request.Path).2 hb) ht
  simp only [API.HandleRequest, hh, false_and, if_false, hpre]
  rfl

/-- Witness of C15: `GET /unknown/` and `GET /api/not-found/`, sent to an API whose store is
nil. -/
theorem handleRequest_not_found_witness :
    API.HandleRequest sampleEnv ⟨none⟩ 1 unknownRequest
      = (.returned ⟨404, "\x7b\"message\": \"Not Found\"\x7d",
          [("Content-Type", "application/json")]⟩ none, []) ∧
    API.HandleRequest sampleEnv ⟨none⟩ 1 notFoundRequest
      = (.returned ⟨404, "\x7b\"message\": \"Not Found\"\x7d",
          [("Content-Type", "application/json")]⟩ none, []) :=
  ⟨handleRequest_not_found sampleEnv ⟨none⟩ 1 unknownRequest (by decide)
      (fun h => by rw [underTasks_iff] at h; revert h; decide),
    handleRequest_not_found sampleEnv ⟨none⟩ 1 notFoundRequest (by decide)
      (fun h => by rw [underTasks_iff] at h; revert h; decide)⟩

/-- C16: for the path `/api/health-check/` and the method GET, `HandleRequest` returns status
200, the body `{"message": "OK"}` and a nil error, for every API (one with a nil store
included), every query and every body, without a call on the backend; `healthCheck` returns the
same. -/
theorem handleRequest_health_check (env : Env) (api : API) (fuel : Nat)
    (query : List (String × String)) (body : String) :
    api.HandleRequest env fuel ⟨"/api/health-check/", "GET", query, body⟩
      = (.returned ⟨200, "\x7b\"message\": \"OK\"\x7d",
          [("Content-Type", "application/json")]⟩ none, []) ∧
    api.healthCheck
      = (.returned ⟨200, "\x7b\"message\": \"OK\"\x7d",
          [("Content-Type", "application/json")]⟩ none, []) ∧
    API.HandleRequest env ⟨none⟩ fuel ⟨"/api/health-check/", "GET", query, body⟩
      = API.healthCheck ⟨none⟩ := by
  refine ⟨?_, rfl, ?_⟩
  · simp only [API.HandleRequest, and_self, if_true]
    rfl
  · simp only [API.HandleRequest, and_self, if_true]

/-- C17, as stated, fails: `GET /health/` is answered 404 "Not Found", not with the health
response. -/
theorem health_path_not_routed :
    API.HandleRequest sampleEnv ⟨some ⟨emptyClient, "tasks"⟩⟩ 1 healthRequest
      = (.returned ⟨404, "\x7b\"message\": \"Not Found\"\x7d",
          [("Content-Type", "application/json")]⟩ none, []) ∧
    ¬ ∃ body,
      (API.HandleRequest sampleEnv ⟨some ⟨emptyClient, "tasks"⟩⟩ 1 healthRequest).1
        = .returned ⟨200, body, [("Content-Type", "application/json")]⟩ none := by
  have h : API.HandleRequest sampleEnv ⟨some ⟨emptyClient, "tasks"⟩⟩ 1 healthRequest
      = (.returned ⟨404, "\x7b\"message\": \"Not Found\"\x7d",
          [("Content-Type", "application/json")]⟩ none, []) := by
    decide
  refine ⟨h, ?_⟩
  rintro ⟨body, hb⟩
  rw [h] at hb
  simp at hb

/-- C17, amended: a request with method GET and path `/api/health-check/` is answered by the
router with the health response, status 200 and body `{"message": "OK"}`. -/
theorem health_check_routed (env : Env) (api : API) (fuel : Nat) (request : Request)
    (hp : request.Path = "/api/health-check/") (hm : request.HTTPMethod = "GET") :
    (api.HandleRequest env fuel request).1
      = .returned ⟨200, "\x7b\"message\": \"OK\"\x7d",
          [("Content-Type", "application/json")]⟩ none := by
  simp only [API.HandleRequest, hp, hm, and_self, if_true]
  rfl

/-- Witness of C17, amended: `GET /api/health-check/`. -/
theorem health_check_routed_witness :
    (API.HandleRequest sampleEnv ⟨some ⟨emptyClient, "tasks"⟩⟩ 1 healthCheckRequest).1
      = .returned ⟨200, "\x7b\"message\": \"OK\"\x7d",
          [("Content-Type", "application/json")]⟩ none :=
  health_check_routed sampleEnv ⟨some ⟨emptyClient, "tasks"⟩⟩ 1 healthCheckRequest rfl rfl

/-! ## The headers of every response -/

theorem respond_headers (status : Nat) (body : String) (calls : List Call)
    (response : Response) (err : Option GoError)
    (h : (respond status body, calls).1 = .returned response err) :
    response.Headers = [("Content-Type", "application/json")] ∧ err = none := by
  simp only [respond, Outcome.returned.injEq] at h
  obtain ⟨h1, h2⟩ := h
  subst h1 h2
  exact ⟨rfl, rfl⟩

theorem listTasks_headers (env : Env) (api : API) (fuel : Nat) (request : Request)
    (response : Response) (err : Option GoError)
    (h : (api.listTasks env fuel request).1 = .returned response err) :
    response.Headers = [("Content-Type", "application/json")] ∧ err = none := by
  unfold API.listTasks at h
  simp only at h
  split at h
  · exact respond_headers _ _ _ _ _ h
  · split at h
    · simp at h
    · simp at h
    · exact respond_headers _ _ _ _ _ h
    · split at h <;> exact respond_headers _ _ _ _ _ h

theorem getTask_headers (env : Env) (api : API) (taskIDStr : String) (request : Request)
    (response : Response) (err : Option GoError)
    (h : (api.getTask env taskIDStr request).1 = .returned response err) :
    response.Headers = [("Content-Type", "application/json")] ∧ err = none := by
  unfold API.getTask at h
  split at h
  · exact respond_headers _ _ _ _ _ h
  · simp only at h
    split at h
    · exact respond_headers _ _ _ _ _ h
    · split at h
      · simp at h
      · exact respond_headers _ _ _ _ _ h
      · split at h <;> exact respond_headers _ _ _ _ _ h

theorem createTask_headers (env : Env) (api : API) (request : Request)
    (response : Response) (err : Option GoError)
    (h : (api.createTask env request).1 = .returned response err) :
    response.Headers = [("Content-Type", "application/json")] ∧ err = none := by
  unfold API.createTask at h
  split at h
  · exact respond_headers _ _ _ _ _ h
  · split at h
    · exact respond_headers _ _ _ _ _ h
    · split at h
      · exact respond_headers _ _ _ _ _ h
      · simp only at h
        split at h
        · simp at h
        · exact respond_headers _ _ _ _ _ h
        · split at h <;> exact respond_headers _ _ _ _ _ h

/-- Every response that `HandleRequest` returns, whatever the store is (a nil store included),
carries the JSON headers and comes with a nil error. -/
theorem handleRequest_headers (env : Env) (api : API) (fuel : Nat) (request : Request)
    (response : Response) (err : Option GoError)
    (h : (api.HandleRequest env fuel request).1 = .returned response err) :
    response.Headers = [("Content-Type", "application/json")] ∧ err = none := by
  unfold API.HandleRequest at h
  simp only at h
  split at h
  · exact respond_headers _ _ _ _ _ h
  · split at h
    · split at h
      · unfold API.handleTaskByID at h
        split at h
        · exact getTask_headers _ _ _ _ _ _ h
        · exact respond_headers _ _ _ _ _ h
      · unfold API.handleTasks at h
        split at h
        · exact listTasks_headers _ _ _ _ _ _ h
        · split at h
          · exact createTask_headers _ _ _ _ _ h
          · exact respond_headers _ _ _ _ _ h
    · exact respond_headers _ _ _ _ _ h

/-! ## Every request gets a response -/

/-- When the pages of the query end within `n` queries, or a query fails, `listByStatus` has
returned after `n` rounds of its loop. -/
theorem listByStatus_done (env : Env) (ts : TaskStore) (owner : String) (status : TaskStatus)
    (n fuel : Nat) (hn : n ≤ fuel) (r : Except GoError (List QueryOutput))
    (hp : pagesFrom ts.client (queryInput ts owner status) n none = .done r) :
    ∃ result, (ts.listByStatus env fuel owner status).1 = .done result := by
  obtain ⟨k, rfl⟩ := Nat.exists_eq_add_of_le hn
  unfold TaskStore.listByStatus
  cases r with
  | error e =>
    obtain ⟨err, made, hs⟩ := listLoop_fail env ts n (queryInput ts owner status) .null none
      [] (fun _ => rfl) (.error e) hp (fun pages hr => by cases hr) k
    exact ⟨_, by rw [hs]⟩
  | ok pages =>
    cases hd : decodePages env pages with
    | ok tasks =>
      obtain ⟨s, hs, -⟩ := listLoop_ok env ts n (queryInput ts owner status) .null none []
        (fun _ => rfl) pages tasks hp hd k
      exact ⟨_, by rw [hs]⟩
    | error e =>
      obtain ⟨err, made, hs⟩ := listLoop_fail env ts n (queryInput ts owner status) .null
        none [] (fun _ => rfl) (.ok pages) hp
        (fun pages2 hr => by cases hr; exact ⟨e, hd⟩) k
      exact ⟨_, by rw [hs]⟩

/-- While `listByStatus` is still in its loop after `fuel` rounds, the backend has neither
sent a last page nor failed within `fuel` queries. -/
theorem pages_running (env : Env) (ts : TaskStore) (owner : String) (status : TaskStatus)
    (fuel : Nat) (h : (ts.listByStatus env fuel owner status).1 = .running) :
    pagesFrom ts.client (queryInput ts owner status) fuel none = .running := by
  cases hp : pagesFrom ts.client (queryInput ts owner status) fuel none with
  | running => rfl
  | done r =>
    obtain ⟨result, hr⟩ := listByStatus_done env ts owner status fuel fuel (le_refl _) r hp
    rw [hr] at h
    cases h

/-- With a store, `listTasks` answers, unless the owner is given and the loop of
`listByStatus` on the partition of the requested status is still running. -/
theorem listTasks_returns (env : Env) (ts : TaskStore) (fuel : Nat) (request : Request) :
    (∃ status body, (API.listTasks env ⟨some ts⟩ fuel request).1 = respond status body) ∨
    ((API.listTasks env ⟨some ts⟩ fuel request).1 = .running ∧ request.query "owner" ≠ "" ∧
      (ts.listByStatus env fuel (request.query "owner")
        (if request.query "status" = TaskStatusClosed then TaskStatusClosed
          else TaskStatusOpen)).1 = .running) := by
  unfold API.listTasks
  by_cases ho : request.query "owner" = ""
  · simp only [ho, if_true]
    exact Or.inl ⟨_, _, rfl⟩
  · simp only [ho, if_false, API.withStore]
    by_cases hs : request.query "status" = TaskStatusClosed
    · simp only [hs, if_true, TaskStore.ListClosed]
      cases hl : (ts.listByStatus env fuel (request.query "owner") TaskStatusClosed).1 with
      | running => exact Or.inr ⟨rfl, ho, rfl⟩
      | done result =>
        obtain ⟨tasks, err⟩ := result
        cases err with
        | some e => exact Or.inl ⟨_, _, rfl⟩
        | none =>
          simp only
          cases jsonMarshalTasks env tasks with
          | error e => exact Or.inl ⟨_, _, rfl⟩
          | ok body => exact Or.inl ⟨_, _, rfl⟩
    · simp only [hs, if_false, TaskStore.ListOpen]
      cases hl : (ts.listByStatus env fuel (request.query "owner") TaskStatusOpen).1 with
      | running => exact Or.inr ⟨rfl, ho, rfl⟩
      | done result =>
        obtain ⟨tasks, err⟩ := result
        cases err with
        | some e => exact Or.inl ⟨_, _, rfl⟩
        | none =>
          simp only
          cases jsonMarshalTasks env tasks with
          | error e => exact Or.inl ⟨_, _, rfl⟩
          | ok body => exact Or.inl ⟨_, _, rfl⟩

/-- With a store, `getTask` answers every request. -/
theorem getTask_returns (env : Env) (ts : TaskStore) (taskIDStr : String)
    (request : Request) :
    ∃ status body, (API.getTask env ⟨some ts⟩ taskIDStr request).1 = respond status body := by
  unfold API.getTask
  cases Parse taskIDStr with
  | error e => exact ⟨_, _, rfl⟩
  | ok taskID =>
    simp only
    by_cases ho : request.query "owner" = ""
    · simp only [ho, if_true]
      exact ⟨_, _, rfl⟩
    · simp only [ho, if_false, API.withStore]
      cases hg : (ts.GetByID env taskID (request.query "owner")).1 with
      | mk task err =>
        cases err with
        | some e => exact ⟨_, _, rfl⟩
        | none =>
          simp only
          cases env.jsonMarshalTask task with
          | error e => exact ⟨_, _, rfl⟩
          | ok body => exact ⟨_, _, rfl⟩

/-- With a store, `createTask` answers every request. -/
theorem createTask_returns (env : Env) (ts : TaskStore) (request : Request) :
    ∃ status body, (API.createTask env ⟨some ts⟩ request).1 = respond status body := by
  unfold API.createTask
  cases env.jsonUnmarshalCreateTaskRequest request.Body with
  | error e => exact ⟨_, _, rfl⟩
  | ok createRequest =>
    simp only
    by_cases ht : createRequest.Title = ""
    · simp only [ht, if_true]
      exact ⟨_, _, rfl⟩
    · by_cases ho : createRequest.Owner = ""
      · simp only [ht, ho, if_true, if_false]
        exact ⟨_, _, rfl⟩
      · simp only [ht, ho, if_false, API.add]
        cases (ts.Add env (NewTask env.newUUID createRequest.Title createRequest.Owner)).1 with
        | some e => exact ⟨_, _, rfl⟩
        | none =>
          simp only
          cases env.jsonMarshalTask
              (NewTask env.newUUID createRequest.Title createRequest.Owner) with
          | error e => exact ⟨_, _, rfl⟩
          | ok body => exact ⟨_, _, rfl⟩

/-- With a store, `HandleRequest` answers every request, unless it is a list request (GET on a
path under the tasks prefix without ID segment, with an owner) whose pagination loop is still
running. -/
theorem handleRequest_returns (env : Env) (ts : TaskStore) (fuel : Nat) (request : Request) :
    (∃ status body, (API.HandleRequest env ⟨some ts⟩ fuel request).1 = respond status body) ∨
    ((API.HandleRequest env ⟨some ts⟩ fuel request).1 = .running ∧
      underTasks request.Path ∧ idSegment request.Path = "" ∧ request.HTTPMethod = "GET" ∧
      request.query "owner" ≠ "" ∧
      (ts.listByStatus env fuel (request.query "owner")
        (if request.query "status" = TaskStatusClosed then TaskStatusClosed
          else TaskStatusOpen)).1 = .running) := by
  by_cases hu : underTasks request.Path
  · rw [handleRequest_underTasks env _ fuel request hu]
    by_cases hid : idSegment request.Path = ""
    · simp only [hid, ne_eq, not_true, if_false]
      unfold API.handleTasks
      by_cases hg : request.HTTPMethod = "GET"
      · simp only [hg, if_true]
        rcases listTasks_returns env ts fuel request with h | ⟨h1, h2, h3⟩
        · exact Or.inl h
        · exact Or.inr ⟨h1, hu, trivial, trivial, h2, h3⟩
      · simp only [hg, if_false]
        by_cases hp : request.HTTPMethod = "POST"
        · simp only [hp, if_true]
          exact Or.inl (createTask_returns env ts request)
        · simp only [hp, if_false]
          exact Or.inl ⟨_, _, rfl⟩
    · simp only [hid, ne_eq, not_false_eq_true, if_true]
      unfold API.handleTaskByID
      by_cases hg : request.HTTPMethod = "GET"
      · simp only [hg, if_true]
        exact Or.inl (getTask_returns env ts _ request)
      · simp only [hg, if_false]
        exact Or.inl ⟨_, _, rfl⟩
  · left
    have hpre : ¬ ("/api/tasks/".data.isPrefixOf request.Path.data = true) :=
      fun h => hu ((underTasks_iff request.Path).2 h)
    unfold API.HandleRequest
    by_cases hh : request.Path = "/api/health-check/" ∧ request.HTTPMethod = "GET"
    · simp only [hh, and_self, if_true]
      exact ⟨_, _, rfl⟩
    · simp only [hh, if_false, hpre]
      exact ⟨_, _, rfl⟩

theorem respond_returned (status : Nat) (body : String) :
    ∃ response, respond status body = .returned response none ∧
      response.Headers = [("Content-Type", "application/json")] ∧
      response.Headers.lookup "Content-Type" = some "application/json" :=
  ⟨⟨status, body, jsonHeaders⟩, rfl, rfl,
    (by decide : jsonHeaders.lookup "Content-Type" = some "application/json")⟩

/-- C19: on an API with a store, whatever the request (path, method, query parameters, body)
and whatever the backend answers, `HandleRequest` returns a response that carries the header
`Content-Type: application/json`, with a nil error, and it never panics. The one request that
waits is the list request (GET under the tasks prefix without ID segment, with an owner): it
is answered as soon as the backend has sent a last page or failed, so after `fuel` rounds of
the pagination loop it is still running only while the backend has done neither within `fuel`
queries. Every response returned on any API, a nil store included, carries the header. -/
theorem handleRequest_content_type (env : Env) (ts : TaskStore) (fuel : Nat)
    (request : Request) :
    ((∃ response,
        (API.HandleRequest env ⟨some ts⟩ fuel request).1 = .returned response none ∧
        response.Headers = [("Content-Type", "application/json")] ∧
        response.Headers.lookup "Content-Type" = some "application/json") ∨
      ((API.HandleRequest env ⟨some ts⟩ fuel request).1 = .running ∧
        underTasks request.Path ∧ idSegment request.Path = "" ∧
        request.HTTPMethod = "GET" ∧ request.query "owner" ≠ "" ∧
        pagesFrom ts.client (queryInput ts (request.query "owner")
          (if request.query "status" = TaskStatusClosed then TaskStatusClosed
            else TaskStatusOpen)) fuel none = .running)) ∧
    (∀ n r, n ≤ fuel →
      pagesFrom ts.client (queryInput ts (request.query "owner")
        (if request.query "status" = TaskStatusClosed then TaskStatusClosed
          else TaskStatusOpen)) n none = .done r →
      ∃ response,
        (API.HandleRequest env ⟨some ts⟩ fuel request).1 = .returned response none ∧
        response.Headers = [("Content-Type", "application/json")] ∧
        response.Headers.lookup "Content-Type" = some "application/json") ∧
    (∀ (api : API) (response : Response) (err : Option GoError),
      (api.HandleRequest env fuel request).1 = .returned response err →
      response.Headers = [("Content-Type", "application/json")] ∧
      response.Headers.lookup "Content-Type" = some "application/json" ∧ err = none) := by
  refine ⟨?_, ?_, ?_⟩
  · rcases handleRequest_returns env ts fuel request with ⟨status, body, h⟩ | h
    · rw [h]
      exact Or.inl (respond_returned status body)
    · obtain ⟨h1, hu, hid, hg, ho, hl⟩ := h
      exact Or.inr ⟨h1, hu, hid, hg, ho, pages_running env ts _ _ fuel hl⟩
  · intro n r hn hp
    rcases handleRequest_returns env ts fuel request with ⟨status, body, h⟩ | h
    · rw [h]
      exact respond_returned status body
    · obtain ⟨-, -, -, -, -, hl⟩ := h
      have hrun := pages_running env ts _ _ fuel hl
      obtain ⟨k, rfl⟩ := Nat.exists_eq_add_of_le hn
      rw [pagesFrom_mono _ _ n none r hp k] at hrun
      cases hrun
  · intro api response err h
    have key := handleRequest_headers env api fuel request response err h
    refine ⟨key.1, ?_, key.2⟩
    rw [key.1]
    decide

/-- Witness of C19: the list request for an owner without tasks, on a backend that answers
with one empty last page, is answered within one round of the loop. -/
theorem handleRequest_content_type_witness :
    (1 ≤ 1 ∧
      pagesFrom emptyClient (queryInput ⟨emptyClient, "tasks"⟩ (listRequest.query "owner")
        (if listRequest.query "status" = TaskStatusClosed then TaskStatusClosed
          else TaskStatusOpen)) 1 none = .done (.ok [⟨[], none⟩])) ∧
    (API.HandleRequest sampleEnv ⟨some ⟨emptyClient, "tasks"⟩⟩ 1 listRequest).1
      = .returned ⟨200, "null", [("Content-Type", "application/json")]⟩ none ∧
    (∃ response,
      (API.HandleRequest sampleEnv ⟨some ⟨emptyClient, "tasks"⟩⟩ 1 listRequest).1
        = .returned response none ∧
      response.Headers = [("Content-Type", "application/json")] ∧
      response.Headers.lookup "Content-Type" = some "application/json") ∧
    ((⟨200, "null", [("Content-Type", "application/json")]⟩ : Response).Headers
        = [("Content-Type", "application/json")] ∧
      (⟨200, "null", [("Content-Type", "application/json")]⟩ : Response).Headers.lookup
        "Content-Type" = some "application/json" ∧ (none : Option GoError) = none) :=
  ⟨⟨by decide, by decide⟩, by decide,
    (handleRequest_content_type sampleEnv ⟨emptyClient, "tasks"⟩ 1 listRequest).2.1 1
      (.ok [⟨[], none⟩]) (by decide) (by decide),
    (handleRequest_content_type sampleEnv ⟨emptyClient, "tasks"⟩ 1 listRequest).2.2
      ⟨some ⟨emptyClient, "tasks"⟩⟩ ⟨200, "null", [("Content-Type", "application/json")]⟩ none
      (by decide)⟩

/-! ## The in-memory store: what create operations reach, and upsert -/

theorem mem_tasksOf_add {m : MockTaskStore} {task t : Task} {owner : String}
    (h : t ∈ (m.Add task).1.tasksOf owner) : t = task ∨ t ∈ m.tasksOf owner := by
  obtain ⟨ownerTasks, key, h1, h2⟩ := mem_tasksOf.1 h
  by_cases ho : owner = task.Owner
  · subst ho
    rw [add_tasks_lookup] at h1
    cases Option.some.inj h1
    by_cases hk : key = task.ID.String
    · subst hk
      rw [AList.lookup_insert] at h2
      exact Or.inl (Option.some.inj h2).symm
    · rw [AList.lookup_insert_ne hk] at h2
      cases h3 : m.tasks.lookup task.Owner with
      | none => simp [h3] at h2
      | some inner =>
        simp only [h3, Option.getD_some] at h2
        exact Or.inr (mem_tasksOf.2 ⟨inner, key, h3, h2⟩)
  · rw [add_tasks_lookup_ne m task owner ho] at h1
    exact Or.inr (mem_tasksOf.2 ⟨ownerTasks, key, h1, h2⟩)

theorem created_open {m : MockTaskStore} (h : m.Created) (owner : String) :
    ∀ t ∈ m.tasksOf owner, t.Status = TaskStatusOpen := by
  induction h with
  | new =>
    intro t ht
    simp [MockTaskStore.tasksOf, NewMockTaskStore] at ht
  | add m id title o _ ih =>
    intro t ht
    rcases mem_tasksOf_add ht with e | hm
    · rw [e]
      rfl
    · exact ih t hm

/-- C18: on every store reached from a new store by create operations (each one
`Add(NewTask(id, title, owner))`), `ListClosed` returns a nil error and no task for every owner
and every order of visit, and every stored task has status OPEN. -/
theorem created_none_closed (m : MockTaskStore) (h : m.Created) :
    (∀ owner order, m.RangeOrder owner order →
      (m.ListClosed order owner).2 = none ∧ (m.ListClosed order owner).1.toList = []) ∧
    (∀ owner, ∀ t ∈ m.tasksOf owner, t.Status = TaskStatusOpen) := by
  refine ⟨?_, created_open h⟩
  intro owner order hord
  have hp := listByStatus_perm m owner order hord TaskStatusClosed
  refine ⟨hp.1, ?_⟩
  have hnone : (m.tasksOf owner).filter (fun t => t.Status = TaskStatusClosed) = [] := by
    rw [List.filter_eq_nil_iff]
    intro t ht
    rw [created_open h owner t ht]
    decide
  rw [hnone] at hp
  exact List.Perm.eq_nil hp.2

/-- Witness of C18: the store after one create operation. -/
theorem created_none_closed_witness :
    sampleStore.Created ∧
    (sampleStore.ListClosed [sampleTask] "a@x.com").1.toList = [] ∧
    (∀ t ∈ sampleStore.tasksOf "a@x.com", t.Status = TaskStatusOpen) :=
  ⟨MockTaskStore.Created.add NewMockTaskStore sampleTask.ID "Buy milk" "a@x.com" .new,
    ((created_none_closed sampleStore
      (MockTaskStore.Created.add NewMockTaskStore sampleTask.ID "Buy milk" "a@x.com" .new)).1
      "a@x.com" [sampleTask] (by decide)).2,
    (created_none_closed sampleStore
      (MockTaskStore.Created.add NewMockTaskStore sampleTask.ID "Buy milk" "a@x.com" .new)).2
      "a@x.com"⟩

theorem sum_kerase {V : Type} (f : V → Nat) (l : List (Sigma fun _ : String => V))
    (k : String) (v : V) (h : List.dlookup k l = some v) :
    (l.map (fun e => f e.2)).sum = f v + ((List.kerase k l).map (fun e => f e.2)).sum := by
  induction l with
  | nil => simp at h
  | cons e rest ih =>
    obtain ⟨k2, v2⟩ := e
    by_cases hk : k = k2
    · subst hk
      rw [List.dlookup_cons_eq] at h
      cases Option.some.inj h
      simp [List.kerase_cons_eq]
    · rw [List.dlookup_cons_ne _ _ hk] at h
      rw [List.kerase_cons_ne hk]
      simp only [List.map_cons, List.sum_cons, ih h]
      omega

theorem length_insert_of_lookup {V : Type} (s : GoMap V) (k : String) (old v : V)
    (h : s.lookup k = some old) : (s.insert k v).entries.length = s.entries.length := by
  have h1 := sum_kerase (fun _ => 1) s.entries k old h
  simp only [List.map_const', List.sum_replicate, smul_eq_mul, mul_one] at h1
  rw [AList.insert_entries, List.length_cons, h1]
  omega

theorem add_of_lookup (n : MockTaskStore) (task : Task) (inner : GoMap Task)
    (h : n.tasks.lookup task.Owner = some inner) :
    (n.Add task).1 = ⟨n.tasks.insert task.Owner (inner.insert task.ID.String task)⟩ := by
  simp [MockTaskStore.Add, h]

theorem add_same_twice (m : MockTaskStore) (task : Task) :
    ((m.Add task).1.Add task).1 = (m.Add task).1 := by
  have h1 := add_tasks_lookup m task
  rw [add_of_lookup (m.Add task).1 task _ h1, AList.insert_insert]
  have e : ∃ tasks : GoMap (GoMap Task), (m.Add task).1
      = ⟨tasks.insert task.Owner
          (((m.tasks.lookup task.Owner).getD ∅).insert task.ID.String task)⟩ := by
    cases h : m.tasks.lookup task.Owner
    · exact ⟨m.tasks.insert task.Owner ∅, by simp [MockTaskStore.Add, h]⟩
    · exact ⟨m.tasks, by simp [MockTaskStore.Add, h]⟩
  obtain ⟨tasks, he⟩ := e
  rw [he, AList.insert_insert]

/-- C20: `MockTaskStore.Add` returns a nil error on every store and for every task; adding the
same task twice leaves the store as adding it once does; when a task is already stored under
the owner and id of the task added, the task added takes its place (`GetByID` returns it) and
the number of stored tasks is unchanged; and what `GetByID` returns for any other owner or id
is unchanged. -/
theorem add_upsert (m : MockTaskStore) (task : Task) :
    (m.Add task).2 = none ∧
    ((m.Add task).1.Add task).1 = (m.Add task).1 ∧
    ((m.GetByID task.ID task.Owner).2 = none →
      (m.Add task).1.GetByID task.ID task.Owner = (task, none) ∧
      (m.Add task).1.count = m.count) ∧
    (∀ id owner, (owner ≠ task.Owner ∨ id ≠ task.ID) →
      (m.Add task).1.GetByID id owner = m.GetByID id owner) := by
  refine ⟨rfl, add_same_twice m task, ?_, ?_⟩
  · intro hpresent
    have hl := add_tasks_lookup m task
    constructor
    · simp [MockTaskStore.GetByID, hl, AList.lookup_insert]
    · cases h1 : m.tasks.lookup task.Owner with
      | none => simp [MockTaskStore.GetByID, h1] at hpresent
      | some inner =>
        cases h2 : inner.lookup task.ID.String with
        | none => simp [MockTaskStore.GetByID, h1, h2] at hpresent
        | some old =>
          have hlen := length_insert_of_lookup inner task.ID.String old task h2
          have hsum := sum_kerase (fun s : GoMap Task => s.entries.length) m.tasks.entries
            task.Owner inner h1
          simp only [MockTaskStore.count, MockTaskStore.Add, h1, Option.getD_some,
            AList.insert_entries, List.map_cons, List.sum_cons]
          rw [hsum]
          simp only [AList.insert_entries] at hlen
          rw [hlen]
  · intro id owner hne
    by_cases ho : owner = task.Owner
    · subst ho
      have hid : id.String ≠ task.ID.String := by
        intro e
        rcases hne with h | h
        · exact h rfl
        · exact h (String_injective e)
      have hl := add_tasks_lookup m task
      simp only [MockTaskStore.GetByID, hl, AList.lookup_insert_ne hid]
      cases h1 : m.tasks.lookup task.Owner <;> simp
    · have hl := add_tasks_lookup_ne m task owner ho
      simp only [MockTaskStore.GetByID, hl]

/-- Witness of C20: the store that holds `sampleTask`, to which the same id and owner are added
with another title. -/
theorem add_upsert_witness :
    (sampleStore.GetByID retitledTask.ID retitledTask.Owner).2 = none ∧
    (sampleStore.Add retitledTask).1.GetByID retitledTask.ID retitledTask.Owner
      = (retitledTask, none) ∧
    (sampleStore.Add retitledTask).1.count = 1 ∧ sampleStore.count = 1 ∧
    (sampleStore.Add retitledTask).1.count = sampleStore.count :=
  ⟨by decide,
    ((add_upsert sampleStore retitledTask).2.2.1 (by decide)).1, by decide, by decide,
    ((add_upsert sampleStore retitledTask).2.2.1 (by decide)).2⟩

/-! ## The key schema -/

theorem append_right_cancel {a b s : String} (h : a ++ s = b ++ s) : a = b := by
  have h2 := congrArg String.data h
  simp only [String.data_append] at h2
  exact String.ext (List.append_cancel_right h2)

theorem open_ne_closed (a b : String) : a ++ "#" ++ "OPEN" ≠ b ++ "#" ++ "CLOSED" := by
  intro h
  have h2 := congrArg (fun s => s.data.reverse) h
  simp [String.data_append] at h2

/-- C24: for every Task (any title, owner, status and UUID) and every reading of the clock,
`ToTask` applied to the record that `ToDynamoDBTask` builds returns a nil error and a Task equal
to the one encoded. -/
theorem toTask_toDynamoDBTask (now : Time) (t : Task) :
    (ToDynamoDBTask now t).ToTask = (t, none) := by
  simp [DynamoDBTask.ToTask, ToDynamoDBTask, Parse_String]

/-- C22: the records of two Tasks, written at any two instants, have the same PK and the same
SK exactly when the Tasks have the same owner and the same id; the key that `GetByID` sends to
`GetItem` for the id and owner of a Task is the pair of PK and SK of the record of that Task,
which is the record that `Add` marshals and puts. -/
theorem primary_key_unique (env : Env) (ts : TaskStore) (now1 now2 : Time) (t1 t2 : Task) :
    (((ToDynamoDBTask now1 t1).PK = (ToDynamoDBTask now2 t2).PK ∧
        (ToDynamoDBTask now1 t1).SK = (ToDynamoDBTask now2 t2).SK)
      ↔ (t1.Owner = t2.Owner ∧ t1.ID = t2.ID)) ∧
    (ts.GetByID env t1.ID t1.Owner).2
      = [.GetItem ts.tableName [("PK", .S (ToDynamoDBTask now1 t1).PK),
          ("SK", .S (ToDynamoDBTask now1 t1).SK)]] ∧
    (ts.Add env t1).2
      = (match env.MarshalMap (ToDynamoDBTask env.now t1) with
        | .error _ => []
        | .ok av => [.PutItem ts.tableName av]) := by
  refine ⟨?_, ?_, ?_⟩
  · constructor
    · rintro ⟨hpk, hsk⟩
      exact ⟨append_left_cancel hpk, String_injective (append_left_cancel hsk)⟩
    · rintro ⟨ho, hi⟩
      simp [ToDynamoDBTask, ho, hi]
  · simp only [TaskStore.GetByID, primaryKey, ToDynamoDBTask]
    split
    · rfl
    · rfl
    · split
      · rfl
      · split <;> rfl
  · simp only [TaskStore.Add]
    split
    · rfl
    · split <;> rfl

/-- C23: for two Tasks whose status is OPEN or CLOSED, with any owners (an owner may contain
`#`), the records written at any two instants have the same GS1PK exactly when the Tasks have
the same owner and the same status; and the partition key that every query of `listByStatus`
carries for the owner and status of a Task is the GS1PK of the record of that Task. -/
theorem secondary_partition_groups (env : Env) (ts : TaskStore) (fuel : Nat)
    (now1 now2 : Time) (t1 t2 : Task)
    (h1 : t1.Status = TaskStatusOpen ∨ t1.Status = TaskStatusClosed)
    (h2 : t2.Status = TaskStatusOpen ∨ t2.Status = TaskStatusClosed) :
    ((ToDynamoDBTask now1 t1).GS1PK = (ToDynamoDBTask now2 t2).GS1PK
      ↔ (t1.Owner = t2.Owner ∧ t1.Status = t2.Status)) ∧
    (queryInput ts t1.Owner t1.Status).ExpressionAttributeValues
      = [(":gspk", .S (ToDynamoDBTask now1 t1).GS1PK)] ∧
    (∀ c ∈ (ts.listByStatus env fuel t1.Owner t1.Status).2, ∃ i : QueryInput, c = .Query i ∧
      i.ExpressionAttributeValues = [(":gspk", .S (ToDynamoDBTask now1 t1).GS1PK)]) := by
  refine ⟨?_, rfl, ?_⟩
  · constructor
    · intro h
      simp only [ToDynamoDBTask] at h
      have hs : t1.Status = t2.Status := by
        rcases h1 with h1 | h1 <;> rcases h2 with h2 | h2
        · rw [h1, h2]
        · rw [h1, h2] at h
          exact absurd h (open_ne_closed _ _)
        · rw [h1, h2] at h
          exact absurd h.symm (open_ne_closed _ _)
        · rw [h1, h2]
      rw [hs] at h
      exact ⟨append_left_cancel (append_right_cancel (append_right_cancel h)), hs⟩
    · rintro ⟨ho, hs⟩
      simp [ToDynamoDBTask, ho, hs]
  · intro c hc
    obtain ⟨i, hi, _, _, h4⟩ := (listByStatus_calls env ts fuel t1.Owner t1.Status).2 c hc
    exact ⟨i, hi, h4⟩

/-- Witness of C23: an open and a closed task of the owner `a@x.com`, and the queries that list
the open tasks of that owner from the paged backend. -/
theorem secondary_partition_groups_witness :
    (sampleTask.Status = TaskStatusOpen ∨ sampleTask.Status = TaskStatusClosed) ∧
    (closedTask.Status = TaskStatusOpen ∨ closedTask.Status = TaskStatusClosed) ∧
    (ToDynamoDBTask ⟨0, 0⟩ sampleTask).GS1PK = "#a@x.com#OPEN" ∧
    (ToDynamoDBTask ⟨0, 0⟩ closedTask).GS1PK = "#a@x.com#CLOSED" ∧
    ((ToDynamoDBTask ⟨0, 0⟩ sampleTask).GS1PK = (ToDynamoDBTask ⟨0, 0⟩ closedTask).GS1PK
      ↔ (sampleTask.Owner = closedTask.Owner ∧ sampleTask.Status = closedTask.Status)) :=
  ⟨by decide, by decide, by decide, by decide,
    (secondary_partition_groups sampleEnv ⟨pagedClient, "tasks"⟩ 3 ⟨0, 0⟩ ⟨0, 0⟩ sampleTask
      closedTask (by decide) (by decide)).1⟩

/-! ## Lemmas: the digits that `appendInt` writes -/

theorem toDigitsCore_small (fuel n : Nat) (ds : List Char) (h : n < 10) :
    Nat.toDigitsCore 10 (fuel + 1) n ds = Nat.digitChar n :: ds := by
  have h1 : n / 10 = 0 := by omega
  have h2 : n % 10 = n := by omega
  simp [Nat.toDigitsCore, h1, h2]

theorem toDigitsCore_step (fuel n : Nat) (ds : List Char) (h : 10 ≤ n) :
    Nat.toDigitsCore 10 (fuel + 1) n ds
      = Nat.toDigitsCore 10 fuel (n / 10) (Nat.digitChar (n % 10) :: ds) := by
  have h1 : n / 10 ≠ 0 := by omega
  simp [Nat.toDigitsCore, h1]

theorem toDigits_two (n : Nat) (h : n < 100) :
    List.replicate (2 - (Nat.toDigits 10 n).length) '0' ++ Nat.toDigits 10 n
      = [Nat.digitChar (n / 10), Nat.digitChar (n % 10)] := by
  unfold Nat.toDigits
  by_cases h1 : n < 10
  · rw [toDigitsCore_small _ _ _ h1]
    have a1 : n / 10 = 0 := by omega
    have a4 : n % 10 = n := by omega
    rw [a1, a4]; rfl
  · obtain ⟨k, rfl⟩ : ∃ k, n = k + 1 := ⟨n - 1, by omega⟩
    rw [toDigitsCore_step _ _ _ (by omega), toDigitsCore_small _ _ _ (by omega)]
    rfl

theorem toDigits_four (n : Nat) (h : n < 10000) :
    List.replicate (4 - (Nat.toDigits 10 n).length) '0' ++ Nat.toDigits 10 n
      = [Nat.digitChar (n / 1000), Nat.digitChar (n / 100 % 10),
         Nat.digitChar (n / 10 % 10), Nat.digitChar (n % 10)] := by
  unfold Nat.toDigits
  by_cases h1 : n < 10
  · rw [toDigitsCore_small _ _ _ h1]
    have a1 : n / 1000 = 0 := by omega
    have a2 : n / 100 % 10 = 0 := by omega
    have a3 : n / 10 % 10 = 0 := by omega
    have a4 : n % 10 = n := by omega
    rw [a1, a2, a3, a4]; rfl
  · by_cases h2 : n < 100
    · obtain ⟨k, rfl⟩ : ∃ k, n = k + 1 := ⟨n - 1, by omega⟩
      rw [toDigitsCore_step _ _ _ (by omega), toDigitsCore_small _ _ _ (by omega)]
      have a1 : (k + 1) / 1000 = 0 := by omega
      have a2 : (k + 1) / 100 % 10 = 0 := by omega
      have a3 : (k + 1) / 10 % 10 = (k + 1) / 10 := by omega
      rw [a1, a2, a3]; rfl
    · by_cases h3 : n < 1000
      · obtain ⟨k, rfl⟩ : ∃ k, n = k + 2 := ⟨n - 2, by omega⟩
        rw [toDigitsCore_step _ _ _ (by omega), toDigitsCore_step _ _ _ (by omega),
          toDigitsCore_small _ _ _ (by omega)]
        have a1 : (k + 2) / 1000 = 0 := by omega
        have a2 : (k + 2) / 100 % 10 = (k + 2) / 10 / 10 := by omega
        rw [a1, a2]; rfl
      · obtain ⟨k, rfl⟩ : ∃ k, n = k + 3 := ⟨n - 3, by omega⟩
        rw [toDigitsCore_step _ _ _ (by omega), toDigitsCore_step _ _ _ (by omega),
          toDigitsCore_step _ _ _ (by omega), toDigitsCore_small _ _ _ (by omega)]
        have a1 : (k + 3) / 1000 = (k + 3) / 10 / 10 / 10 := by omega
        have a2 : (k + 3) / 100 % 10 = (k + 3) / 10 / 10 % 10 := by omega
        rw [a1, a2]; rfl

theorem appendInt_two (x : Int) (h0 : 0 ≤ x) (h1 : x < 100) :
    (appendInt x 2).data
      = [Nat.digitChar (x.toNat / 10), Nat.digitChar (x.toNat % 10)] := by
  obtain ⟨n, rfl⟩ := Int.eq_ofNat_of_zero_le h0
  have hn : n < 100 := by omega
  have hneg : ¬ ((n : Int) < 0) := by omega
  simp only [appendInt, hneg, if_false, Int.natAbs_ofNat, Int.toNat_ofNat]
  exact toDigits_two n hn

theorem appendInt_four (x : Int) (h0 : 0 ≤ x) (h1 : x < 10000) :
    (appendInt x 4).data
      = [Nat.digitChar (x.toNat / 1000), Nat.digitChar (x.toNat / 100 % 10),
         Nat.digitChar (x.toNat / 10 % 10), Nat.digitChar (x.toNat % 10)] := by
  obtain ⟨n, rfl⟩ := Int.eq_ofNat_of_zero_le h0
  have hn : n < 10000 := by omega
  have hneg : ¬ ((n : Int) < 0) := by omega
  simp only [appendInt, hneg, if_false, Int.natAbs_ofNat, Int.toNat_ofNat]
  exact toDigits_four n hn

/-! ## Lemmas: the order of texts made of padded numbers -/

theorem digitChar_lt (a b : Nat) (h : a < b) (hb : b < 10) :
    Nat.digitChar a < Nat.digitChar b := by
  have key : ∀ x y : Fin 10, x < y → Nat.digitChar x.val < Nat.digitChar y.val := by decide
  exact key ⟨a, by omega⟩ ⟨b, hb⟩ h

theorem cons_lt_cons (c : Char) {r1 r2 : List Char} (h : List.lt r1 r2) :
    List.lt (c :: r1) (c :: r2) :=
  List.lt.tail (lt_irrefl c) (lt_irrefl c) h

theorem append_lt_append (l : List Char) {r1 r2 : List Char} (h : List.lt r1 r2) :
    List.lt (l ++ r1) (l ++ r2) := by
  induction l with
  | nil => exact h
  | cons c l ih => exact cons_lt_cons c ih

/-- A two-digit field followed by the rest of the text: the order is decided by the field,
and by the rest when the fields are equal. -/
theorem field_two_lt (a b : Int) (c : Char) (r1 r2 : List Char) (ha : 0 ≤ a) (hb : b < 100)
    (ha1 : a < 100) (hb0 : 0 ≤ b) (h : a < b ∨ (a = b ∧ List.lt r1 r2)) :
    List.lt ((appendInt a 2).data ++ c :: r1) ((appendInt b 2).data ++ c :: r2) := by
  rcases h with h | ⟨h, hr⟩
  · rw [appendInt_two a ha ha1, appendInt_two b hb0 hb]
    have hab : a.toNat < b.toNat := by omega
    have hb2 : b.toNat < 100 := by omega
    rcases Nat.lt_trichotomy (a.toNat / 10) (b.toNat / 10) with h1 | h1 | h1
    · exact List.lt.head _ _ (digitChar_lt _ _ h1 (by omega))
    · rw [h1]
      exact cons_lt_cons _ (List.lt.head _ _ (digitChar_lt _ _ (by omega) (by omega)))
    · omega
  · subst h
    exact append_lt_append _ (cons_lt_cons c hr)

/-- A four-digit field followed by the rest of the text. -/
theorem field_four_lt (a b : Int) (c : Char) (r1 r2 : List Char) (ha : 0 ≤ a)
    (hb : b < 10000) (ha1 : a < 10000) (hb0 : 0 ≤ b)
    (h : a < b ∨ (a = b ∧ List.lt r1 r2)) :
    List.lt ((appendInt a 4).data ++ c :: r1) ((appendInt b 4).data ++ c :: r2) := by
  rcases h with h | ⟨h, hr⟩
  · rw [appendInt_four a ha ha1, appendInt_four b hb0 hb]
    have hab : a.toNat < b.toNat := by omega
    have hb2 : b.toNat < 10000 := by omega
    generalize a.toNat = m at hab
    generalize b.toNat = n at hab hb2
    rcases Nat.lt_trichotomy (m / 1000) (n / 1000) with h1 | h1 | h1
    · exact List.lt.head _ _ (digitChar_lt _ _ h1 (by omega))
    · rw [h1]
      refine cons_lt_cons _ ?_
      rcases Nat.lt_trichotomy (m / 100 % 10) (n / 100 % 10) with h2 | h2 | h2
      · exact List.lt.head _ _ (digitChar_lt _ _ h2 (by omega))
      · rw [h2]
        refine cons_lt_cons _ ?_
        rcases Nat.lt_trichotomy (m / 10 % 10) (n / 10 % 10) with h3 | h3 | h3
        · exact List.lt.head _ _ (digitChar_lt _ _ h3 (by omega))
        · rw [h3]
          exact cons_lt_cons _ (List.lt.head _ _ (digitChar_lt _ _ (by omega) (by omega)))
        · omega
      · omega
    · omega
  · subst h
    exact append_lt_append _ (cons_lt_cons c hr)

/-! ## Lemmas: later days have later dates -/

set_option maxHeartbeats 8000000 in
/-- The year of a day of the era: with the three quotients of `civilFromDays` pinned, the year
`yoe` starts on or before the day and the next year starts after it. -/
theorem doe_year_aux (doe f g : Int) (hf : 0 ≤ f) (hf3 : f ≤ 4) (hg : 0 ≤ g) (hg1 : g ≤ 1)
    (h0 : 0 ≤ doe) (h1 : doe ≤ 146096)
    (hfe : f = doe / 36524) (hge : g = doe / 146096) :
    0 ≤ (doe - doe / 1460 + f - g) / 365 ∧ (doe - doe / 1460 + f - g) / 365 ≤ 399 ∧
    365 * ((doe - doe / 1460 + f - g) / 365) + (doe - doe / 1460 + f - g) / 365 / 4
      - (doe - doe / 1460 + f - g) / 365 / 100 ≤ doe ∧
    doe < 365 * ((doe - doe / 1460 + f - g) / 365 + 1)
      + ((doe - doe / 1460 + f - g) / 365 + 1) / 4
      - ((doe - doe / 1460 + f - g) / 365 + 1) / 100
      + ((doe - doe / 1460 + f - g) / 365 + 1) / 400 := by
  obtain ⟨e, he⟩ : ∃ e, e = doe / 1460 := ⟨_, rfl⟩
  rw [← he]
  obtain ⟨b, hb⟩ : ∃ b, b = (doe - e + f - g) / 365 := ⟨_, rfl⟩
  rw [← hb]
  have hb' : 365 * b ≤ doe - e + f - g ∧ doe - e + f - g ≤ 365 * b + 364 := by omega
  have he' : 1460 * e ≤ doe ∧ doe ≤ 1460 * e + 1459 := by omega
  have hf' : 36524 * f ≤ doe ∧ doe ≤ 36524 * f + 36523 := by omega
  have hg' : 146096 * g ≤ doe ∧ doe ≤ 146096 * g + 146095 := by omega
  clear hb he hfe hge
  obtain ⟨k, hk⟩ : ∃ k, k = e - 25 * f := ⟨_, rfl⟩
  have hk0 : 0 ≤ k := by omega
  have hk1 : k ≤ 25 := by omega
  have hek : e = 25 * f + k := by omega
  subst hek
  clear hk
  interval_cases f <;> interval_cases g <;> first
    | omega
    | (interval_cases k <;> omega)

theorem doe_year (doe : Int) (h0 : 0 ≤ doe) (h1 : doe ≤ 146096) :
    ∃ yoe : Int, yoe = (doe - doe / 1460 + doe / 36524 - doe / 146096) / 365 ∧
      0 ≤ yoe ∧ yoe ≤ 399 ∧ 365 * yoe + yoe / 4 - yoe / 100 ≤ doe ∧
      doe < 365 * (yoe + 1) + (yoe + 1) / 4 - (yoe + 1) / 100 + (yoe + 1) / 400 :=
  ⟨_, rfl, doe_year_aux doe _ _ (by omega) (by omega) (by omega) (by omega) h0 h1 rfl rfl⟩

theorem doy_month (doy : Int) (h0 : 0 ≤ doy) (h1 : doy ≤ 365) :
    ∃ mp d : Int, mp = (5 * doy + 2) / 153 ∧ d = doy - (153 * mp + 2) / 5 + 1 ∧
      0 ≤ mp ∧ mp ≤ 11 ∧ 1 ≤ d ∧ d ≤ 31 ∧
      (153 * mp + 2) / 5 + d - 1 < (153 * (mp + 1) + 2) / 5 := by
  refine ⟨_, _, rfl, rfl, ?_⟩
  omega

/-- The date of a day in years that begin in March: `y` is the year that began on the last
1 March, `mp` the number of months since then and `d` the day of the month. -/
theorem civilFromDays_spec (z : Int) :
    ∃ y mp d : Int, 0 ≤ mp ∧ mp ≤ 11 ∧ 1 ≤ d ∧ d ≤ 31 ∧
      z + 719468 = 365 * y + y / 4 - y / 100 + y / 400 + (153 * mp + 2) / 5 + d - 1 ∧
      z + 719468 < 365 * (y + 1) + (y + 1) / 4 - (y + 1) / 100 + (y + 1) / 400 ∧
      (153 * mp + 2) / 5 + d - 1 < (153 * (mp + 1) + 2) / 5 ∧
      civilFromDays z
        = (if mp < 10 then y else y + 1, if mp < 10 then mp + 3 else mp - 9, d) := by
  obtain ⟨era, hera⟩ : ∃ era, era = (z + 719468) / 146097 := ⟨_, rfl⟩
  obtain ⟨doe, hdoe⟩ : ∃ doe, doe = z + 719468 - era * 146097 := ⟨_, rfl⟩
  have hd0 : 0 ≤ doe ∧ doe ≤ 146096 := by omega
  obtain ⟨yoe, hyoe, hy0, hy1, hlo, hhi⟩ := doe_year doe hd0.1 hd0.2
  obtain ⟨doy, hdoy⟩ : ∃ doy, doy = doe - (365 * yoe + yoe / 4 - yoe / 100) := ⟨_, rfl⟩
  have hdy : 0 ≤ doy ∧ doy ≤ 365 := by omega
  obtain ⟨mp, d, hmp, hd, hm0, hm1, hd1, hd31, hdm⟩ := doy_month doy hdy.1 hdy.2
  have hciv : civilFromDays z
      = (if (if mp < 10 then mp + 3 else mp - 9) ≤ 2 then yoe + era * 400 + 1
          else yoe + era * 400, if mp < 10 then mp + 3 else mp - 9, d) := by
    rw [hd, hmp, hdoy, hyoe, hdoe, hera]; rfl
  have hz : z + 719468 = 146097 * era + 365 * yoe + yoe / 4 - yoe / 100 + doy := by omega
  have hdd : doy = (153 * mp + 2) / 5 + d - 1 := by omega
  have hup : 146097 * era + doe
      < 146097 * era + 365 * (yoe + 1) + (yoe + 1) / 4 - (yoe + 1) / 100 + (yoe + 1) / 400 := by
    omega
  have hzd : z + 719468 = 146097 * era + doe := by omega
  clear hmp hd hdoy hyoe hdoe hera hlo hhi hd0 hdy
  refine ⟨yoe + era * 400, mp, d, hm0, hm1, hd1, hd31, ?_, ?_, hdm, ?_⟩
  · rw [hz, hdd]
    clear hz hdd hup hzd hdm hciv
    omega
  · rw [hzd]
    have e1 : yoe + era * 400 + 1 = (yoe + 1) + era * 400 := by ring
    rw [e1]
    clear hz hdd hzd hdm hciv
    omega
  · rw [hciv]
    by_cases h : mp < 10
    · have h2 : ¬ mp + 3 ≤ 2 := by omega
      simp only [h, if_true, h2, if_false]
    · have h2 : mp - 9 ≤ 2 := by omega
      simp only [h, if_false, h2, if_true]

theorem yearStart_mono (a b : Int) (h : a ≤ b) :
    365 * a + a / 4 - a / 100 + a / 400 ≤ 365 * b + b / 4 - b / 100 + b / 400 := by
  rcases h.eq_or_lt with h | h
  · rw [h]
  · omega

theorem monthStart_mono (a b : Int) (h : a ≤ b) : (153 * a + 2) / 5 ≤ (153 * b + 2) / 5 := by
  omega

theorem lex_of_march (y1 p1 d1 y2 p2 d2 : Int) (hp1 : 0 ≤ p1) (hq1 : p1 ≤ 11)
    (hp2 : 0 ≤ p2) (hq2 : p2 ≤ 11)
    (h : y1 < y2 ∨ (y1 = y2 ∧ (p1 < p2 ∨ (p1 = p2 ∧ d1 < d2)))) :
    (if p1 < 10 then y1 else y1 + 1) < (if p2 < 10 then y2 else y2 + 1) ∨
    ((if p1 < 10 then y1 else y1 + 1) = (if p2 < 10 then y2 else y2 + 1) ∧
      ((if p1 < 10 then p1 + 3 else p1 - 9) < (if p2 < 10 then p2 + 3 else p2 - 9) ∨
        ((if p1 < 10 then p1 + 3 else p1 - 9) = (if p2 < 10 then p2 + 3 else p2 - 9) ∧
          d1 < d2))) := by
  by_cases h10 : p1 < 10 <;> by_cases h20 : p2 < 10 <;>
    simp only [h10, h20, if_true, if_false] <;> omega

/-- Later days have later dates: the dates are ordered as triples. -/
theorem civilFromDays_lt (z1 z2 : Int) (h : z1 < z2) :
    (civilFromDays z1).1 < (civilFromDays z2).1 ∨
    ((civilFromDays z1).1 = (civilFromDays z2).1 ∧
      ((civilFromDays z1).2.1 < (civilFromDays z2).2.1 ∨
        ((civilFromDays z1).2.1 = (civilFromDays z2).2.1 ∧
          (civilFromDays z1).2.2 < (civilFromDays z2).2.2))) := by
  obtain ⟨y1, p1, d1, hp1, hq1, hd1, -, hz1, -, -, e1⟩ := civilFromDays_spec z1
  obtain ⟨y2, p2, d2, hp2, hq2, hd2, -, hz2, hu2, hm2, e2⟩ := civilFromDays_spec z2
  rw [e1, e2]
  refine lex_of_march y1 p1 d1 y2 p2 d2 hp1 hq1 hp2 hq2 ?_
  clear e1 e2
  have hA : y2 + 1 ≤ y1 → 365 * (y2 + 1) + (y2 + 1) / 4 - (y2 + 1) / 100 + (y2 + 1) / 400
      ≤ 365 * y1 + y1 / 4 - y1 / 100 + y1 / 400 := yearStart_mono _ _
  have hB : y1 = y2 → 365 * y1 + y1 / 4 - y1 / 100 + y1 / 400
      = 365 * y2 + y2 / 4 - y2 / 100 + y2 / 400 := fun e => by rw [e]
  have hC : p2 + 1 ≤ p1 → (153 * (p2 + 1) + 2) / 5 ≤ (153 * p1 + 2) / 5 :=
    monthStart_mono _ _
  have hD : p1 = p2 → (153 * p1 + 2) / 5 = (153 * p2 + 2) / 5 := fun e => by rw [e]
  have hE : (153 * 0 + 2) / 5 ≤ (153 * p1 + 2) / 5 := monthStart_mono _ _ hp1
  have hF : (153 * 0 + 2) / 5 ≤ (153 * p2 + 2) / 5 := monthStart_mono _ _ hp2
  have hE0 : (153 * 0 + 2) / 5 = (0 : Int) := by decide
  rw [hE0] at hE hF
  generalize 365 * y1 + y1 / 4 - y1 / 100 + y1 / 400 = G1 at hz1 hA hB
  generalize 365 * y2 + y2 / 4 - y2 / 100 + y2 / 400 = G2 at hz2 hB
  generalize 365 * (y2 + 1) + (y2 + 1) / 4 - (y2 + 1) / 100 + (y2 + 1) / 400 = U2 at hu2 hA
  generalize (153 * p1 + 2) / 5 = S1 at hz1 hC hD hE
  generalize (153 * p2 + 2) / 5 = S2 at hz2 hm2 hD hF
  generalize (153 * (p2 + 1) + 2) / 5 = T2 at hm2 hC
  rcases lt_trichotomy y1 y2 with hy | hy | hy
  · exact Or.inl hy
  · refine Or.inr ⟨hy, ?_⟩
    have hG := hB hy
    rcases lt_trichotomy p1 p2 with hp | hp | hp
    · exact Or.inl hp
    · refine Or.inr ⟨hp, ?_⟩
      have hS := hD hp
      omega
    · have hT := hC (by omega)
      omega
  · have hU := hA (by omega)
    omega

/-- Month and day of a date are in range. -/
theorem civilFromDays_month_day (z : Int) :
    1 ≤ (civilFromDays z).2.1 ∧ (civilFromDays z).2.1 ≤ 12 ∧
    1 ≤ (civilFromDays z).2.2 ∧ (civilFromDays z).2.2 ≤ 31 := by
  obtain ⟨y, p, d, hp, hq, hd, hd31, -, -, -, e⟩ := civilFromDays_spec z
  rw [e]
  by_cases h10 : p < 10 <;> simp only [h10, if_true, if_false] <;> omega

/-! ## The sort key of the secondary index and the time of the write -/

theorem formatRFC3339_data (t : Time) :
    (formatRFC3339 t).data
      = (appendInt (civilFromDays (t.unixSec / 86400)).1 4).data ++ '-' ::
        ((appendInt (civilFromDays (t.unixSec / 86400)).2.1 2).data ++ '-' ::
        ((appendInt (civilFromDays (t.unixSec / 86400)).2.2 2).data ++ 'T' ::
        ((appendInt (t.unixSec % 86400 / 3600) 2).data ++ ':' ::
        ((appendInt (t.unixSec % 86400 % 3600 / 60) 2).data ++ ':' ::
        ((appendInt (t.unixSec % 86400 % 60) 2).data ++ 'Z' :: []))))) := by
  simp only [formatRFC3339, String.data_append, List.append_assoc]
  rfl

/-- The text of an instant in the years 0000 to 9999 grows with the whole second. -/
theorem formatRFC3339_lt (t1 t2 : Time) (h0 : 0 ≤ t1.Year) (h9 : t2.Year ≤ 9999)
    (h : t1.unixSec < t2.unixSec) :
    List.lt (formatRFC3339 t1).data (formatRFC3339 t2).data := by
  rw [formatRFC3339_data, formatRFC3339_data]
  unfold Time.Year at h0 h9
  obtain ⟨u1, hu1⟩ : ∃ u, u = t1.unixSec := ⟨_, rfl⟩
  obtain ⟨u2, hu2⟩ : ∃ u, u = t2.unixSec := ⟨_, rfl⟩
  rw [← hu1, ← hu2]
  rw [← hu1] at h0 h
  rw [← hu2] at h9 h
  clear hu1 hu2
  have hm1 := civilFromDays_month_day (u1 / 86400)
  have hm2 := civilFromDays_month_day (u2 / 86400)
  have hdate : u1 / 86400 < u2 / 86400 ∨
      (u1 / 86400 = u2 / 86400 ∧ u1 % 86400 < u2 % 86400) := by omega
  have b1 : 0 ≤ u1 % 86400 ∧ u1 % 86400 < 86400 := by omega
  have b2 : 0 ≤ u2 % 86400 ∧ u2 % 86400 < 86400 := by omega
  have hlex : (civilFromDays (u1 / 86400)).1 < (civilFromDays (u2 / 86400)).1 ∨
      ((civilFromDays (u1 / 86400)).1 = (civilFromDays (u2 / 86400)).1 ∧
      ((civilFromDays (u1 / 86400)).2.1 < (civilFromDays (u2 / 86400)).2.1 ∨
      ((civilFromDays (u1 / 86400)).2.1 = (civilFromDays (u2 / 86400)).2.1 ∧
      ((civilFromDays (u1 / 86400)).2.2 < (civilFromDays (u2 / 86400)).2.2 ∨
      ((civilFromDays (u1 / 86400)).2.2 = (civilFromDays (u2 / 86400)).2.2 ∧
      (u1 % 86400 / 3600 < u2 % 86400 / 3600 ∨
      (u1 % 86400 / 3600 = u2 % 86400 / 3600 ∧
      (u1 % 86400 % 3600 / 60 < u2 % 86400 % 3600 / 60 ∨
      (u1 % 86400 % 3600 / 60 = u2 % 86400 % 3600 / 60 ∧
        u1 % 86400 % 60 < u2 % 86400 % 60))))))))) := by
    rcases hdate with hd | ⟨hd, hs⟩
    · have := civilFromDays_lt _ _ hd
      clear hm1 hm2 h h0 h9 b1 b2
      generalize civilFromDays (u1 / 86400) = c1 at this ⊢
      generalize civilFromDays (u2 / 86400) = c2 at this ⊢
      omega
    · rw [hd]
      clear hm1 hm2 h h0 h9 hd
      generalize u1 % 86400 = s1 at hs b1 b2 ⊢
      generalize u2 % 86400 = s2 at hs b1 b2 ⊢
      omega
  have hyy : (civilFromDays (u1 / 86400)).1 ≤ (civilFromDays (u2 / 86400)).1 := by
    rcases hlex with hl | ⟨hl, -⟩
    · exact le_of_lt hl
    · exact le_of_eq hl
  clear hdate h
  generalize u1 % 86400 = s1 at hlex b1 ⊢
  generalize u2 % 86400 = s2 at hlex b2 ⊢
  generalize civilFromDays (u1 / 86400) = c1 at hlex hm1 h0 hyy ⊢
  generalize civilFromDays (u2 / 86400) = c2 at hlex hm2 h9 hyy ⊢
  refine field_four_lt _ _ _ _ _ h0 (by omega) (by omega) (by omega)
    (hlex.imp_right (And.imp_right fun hlex => ?_))
  refine field_two_lt _ _ _ _ _ (by omega) (by omega) (by omega) (by omega)
    (hlex.imp_right (And.imp_right fun hlex => ?_))
  refine field_two_lt _ _ _ _ _ (by omega) (by omega) (by omega) (by omega)
    (hlex.imp_right (And.imp_right fun hlex => ?_))
  refine field_two_lt _ _ _ _ _ (by omega) (by omega) (by omega) (by omega)
    (hlex.imp_right (And.imp_right fun hlex => ?_))
  refine field_two_lt _ _ _ _ _ (by omega) (by omega) (by omega) (by omega)
    (hlex.imp_right (And.imp_right fun hlex => ?_))
  exact field_two_lt _ _ _ _ _ (by omega) (by omega) (by omega) (by omega) (Or.inl hlex)

/-- C21 (amended): for two writes at instants whose years lie between 0000 and 9999, the
sort key `GS1SK` that `ToDynamoDBTask` writes at the instant in the earlier whole second is
strictly smaller, as a string, than the one written at the instant in the later whole second;
two writes within the same whole second get the same sort key, whatever their nanoseconds. -/
theorem gs1sk_orders_whole_seconds (t1 t2 : Time) (task1 task2 : Task)
    (h0 : 0 ≤ t1.Year) (h9 : t2.Year ≤ 9999) :
    (t1.unixSec < t2.unixSec →
      (ToDynamoDBTask t1 task1).GS1SK < (ToDynamoDBTask t2 task2).GS1SK) ∧
    (t1.unixSec = t2.unixSec →
      (ToDynamoDBTask t1 task1).GS1SK = (ToDynamoDBTask t2 task2).GS1SK) := by
  constructor
  · intro h
    refine String.lt_iff_toList_lt.mpr ((List.lt_iff_lex_lt _ _).mp ?_)
    exact cons_lt_cons '#' (formatRFC3339_lt t1 t2 h0 h9 h)
  · intro h
    simp only [ToDynamoDBTask, formatRFC3339, h]

theorem gs1sk_orders_whole_seconds_witness :
    0 ≤ newYear.Year ∧ newYearNext.Year ≤ 9999 ∧ newYear.unixSec < newYearNext.unixSec ∧
    newYear.unixSec = newYearHalf.unixSec ∧
    (ToDynamoDBTask newYear sampleTask).GS1SK = "#2023-01-01T00:00:00Z" ∧
    (ToDynamoDBTask newYearNext closedTask).GS1SK = "#2023-01-01T00:00:01Z" ∧
    (ToDynamoDBTask newYear sampleTask).GS1SK < (ToDynamoDBTask newYearNext closedTask).GS1SK ∧
    (ToDynamoDBTask newYear sampleTask).GS1SK = (ToDynamoDBTask newYearHalf closedTask).GS1SK :=
  ⟨by decide, by decide, by decide, by decide, by decide, by decide,
    (gs1sk_orders_whole_seconds newYear newYearNext sampleTask closedTask
      (by decide) (by decide)).1 (by decide),
    (gs1sk_orders_whole_seconds newYear newYearHalf sampleTask closedTask
      (by decide) (by decide)).2 (by decide)⟩

/-- C21 (counterexample): the sort key is not strictly increasing in the instant of the write.
Half a second after 2023-01-01T00:00:00Z the sort key is the same; the first second of the
year 10000 gives a smaller sort key than the last second of the year 9999; and the year -1
gives a smaller sort key than the year -2 before it. -/
theorem gs1sk_not_strictly_increasing :
    (Time.before newYear newYearHalf ∧
      (ToDynamoDBTask newYear sampleTask).GS1SK = "#2023-01-01T00:00:00Z" ∧
      (ToDynamoDBTask newYearHalf sampleTask).GS1SK = "#2023-01-01T00:00:00Z" ∧
      ¬ (ToDynamoDBTask newYear sampleTask).GS1SK
          < (ToDynamoDBTask newYearHalf sampleTask).GS1SK) ∧
    (Time.before lastOf9999 firstOf10000 ∧
      (ToDynamoDBTask lastOf9999 sampleTask).GS1SK = "#9999-12-31T23:59:59Z" ∧
      (ToDynamoDBTask firstOf10000 sampleTask).GS1SK = "#10000-01-01T00:00:00Z" ∧
      ¬ (ToDynamoDBTask lastOf9999 sampleTask).GS1SK
          < (ToDynamoDBTask firstOf10000 sampleTask).GS1SK) ∧
    (Time.before yearMinus2 yearMinus1 ∧
      (ToDynamoDBTask yearMinus2 sampleTask).GS1SK = "#-0002-01-01T00:00:00Z" ∧
      (ToDynamoDBTask yearMinus1 sampleTask).GS1SK = "#-0001-01-01T00:00:00Z" ∧
      ¬ (ToDynamoDBTask yearMinus2 sampleTask).GS1SK
          < (ToDynamoDBTask yearMinus1 sampleTask).GS1SK) := by
  have e1 : (ToDynamoDBTask newYear sampleTask).GS1SK = "#2023-01-01T00:00:00Z" := by decide
  have e2 : (ToDynamoDBTask newYearHalf sampleTask).GS1SK = "#2023-01-01T00:00:00Z" := by
    decide
  have e3 : (ToDynamoDBTask lastOf9999 sampleTask).GS1SK = "#9999-12-31T23:59:59Z" := by
    decide
  have e4 : (ToDynamoDBTask firstOf10000 sampleTask).GS1SK = "#10000-01-01T00:00:00Z" := by
    decide
  have e5 : (ToDynamoDBTask yearMinus2 sampleTask).GS1SK = "#-0002-01-01T00:00:00Z" := by
    decide
  have e6 : (ToDynamoDBTask yearMinus1 sampleTask).GS1SK = "#-0001-01-01T00:00:00Z" := by
    decide
  refine ⟨⟨by decide, e1, e2, ?_⟩, ⟨by decide, e3, e4, ?_⟩, ⟨by decide, e5, e6, ?_⟩⟩
  · rw [e1, e2]; exact lt_irrefl _
  · rw [e3, e4, String.lt_iff_toList_lt]; decide
  · rw [e5, e6, String.lt_iff_toList_lt]; decide

end TasksGo
